import Mathlib

/-!
# Loyalty ledger: order-number validation, upload and withdrawal

A shallow embedding of the Go service `gophermart` (package `service`,
`repository`, `handlers`) and theorems about it.

Modelling conventions

* A Go `string` is a Lean `String`; its bytes (`len`, `number[i]`) are the UTF-8
  encoding of the text (`goBytes`), its runes (`range`) are the characters.
  Go strings that are not well-formed UTF-8 are outside the model.
* Go `int` sums are `Nat`: the Luhn sum is at most nine times the length of the
  string, far below `2^63` for any string that fits in memory.
* `float64` amounts are exact rationals (`ℚ`); rounding, infinities and NaN are
  outside the model, and so is the rounding of the `DECIMAL(10,2)` columns.
* A Go `error` is the text of its message (`err.Error()`), which is what the
  handlers switch on; `fmt.Errorf("...: %w", err)` is string concatenation.
* The PostgreSQL database is a record of three tables with the key
  constraints of `InitDB` (`orders.number UNIQUE`, `user_balances.user_id
  PRIMARY KEY`, `SERIAL` ids).  Every statement either takes effect or returns
  an error and changes nothing.  Errors that the tables of the model cannot
  explain (connection loss, a value too long for its column, a missing
  `users` row) are supplied by the environment of the call, `Ctx.dbErr`.
-/

namespace Loyalty

/-! ## Order-number validation (`loyaltyService.isValidOrderNumber`) -/

namespace loyaltyService

/-- Bytes of a Go string, as numbers below 256: the UTF-8 encoding of its text. -/
def goBytes (s : String) : List Nat :=
  s.data.flatMap (fun c => (String.utf8EncodeChar c).map UInt8.toNat)

/-- Result of `strconv.Atoi(string(b))` for one byte `b`, the error being discarded:
the digit value for `'0'..'9'`, and `0` (the value returned along with an error)
for anything else. -/
def atoiByte (b : Nat) : Nat :=
  if 48 ≤ b ∧ b ≤ 57 then b - 48 else 0

/-- Body of the Luhn loop for one digit: the value added to `sum`. -/
def luhnDigit (alternate : Bool) (digit : Nat) : Nat :=
  if alternate then
    (if digit * 2 > 9 then (digit * 2) % 10 + 1 else digit * 2)
  else digit

/-- The loop `for i := len(number) - 1; i >= 0; i--`, given the bytes of `number`
from the last to the first, the running `sum` and the flag `alternate`. -/
def luhnLoop : List Nat → Nat → Bool → Nat
  | [], sum, _ => sum
  | b :: rest, sum, alternate =>
    luhnLoop rest (sum + luhnDigit alternate (atoiByte b)) (!alternate)

/-- Model of `loyaltyService.isValidOrderNumber`. -/
def isValidOrderNumber (number : String) : Bool :=
  if (goBytes number).length < 2 then false
  else if number.data.any (fun char => char < '0' || char > '9') then false
  else luhnLoop (goBytes number).reverse 0 false % 10 == 0

end loyaltyService

open loyaltyService

/-! ### The Luhn sum as the specification words it -/

/-- Value of a digit character. -/
def digitValue (c : Char) : Nat := c.toNat - 48

/-- Specification side: contribution of the digit `d` standing at position `pos`
counted from the right, the rightmost digit having position `0`.  Digits at odd
positions are doubled, and `9` is subtracted from a doubled value above `9`. -/
def specLuhnTerm (pos d : Nat) : Nat :=
  if pos % 2 = 1 then (if 2 * d > 9 then 2 * d - 9 else 2 * d) else d

/-- Specification side: sum of the contributions of the digits `ds`, listed from
right to left, the first of them standing at position `pos`. -/
def specLuhnFrom : Nat → List Nat → Nat
  | _, [] => 0
  | pos, d :: ds => specLuhnTerm pos d + specLuhnFrom (pos + 1) ds

/-- Specification side: the Luhn sum of a string of digits. -/
def specLuhnSum (s : String) : Nat :=
  specLuhnFrom 0 (s.data.reverse.map digitValue)


/-! ## Data model (`models`) -/

/-- Record of `models.Order`; `UploadedAt` is an instant of the wall clock. -/
structure Order where
  ID : Int
  UserID : Int
  Number : String
  Status : String
  Accrual : Option ℚ
  UploadedAt : Nat
deriving DecidableEq

/-- Record of `models.Balance`. -/
structure Balance where
  Current : ℚ
  Withdrawn : ℚ
deriving DecidableEq

/-- Record of `models.Withdrawal`. -/
structure Withdrawal where
  ID : Int
  UserID : Int
  Order : String
  Sum : ℚ
  ProcessedAt : Nat
deriving DecidableEq

/-- Record of `models.WithdrawRequest`. -/
structure WithdrawRequest where
  Order : String
  Sum : ℚ

def OrderStatusNew : String := "NEW"

/-! ## The database (`postgresRepo`, tables of `InitDB`) -/

/-- Row of the table `user_balances`. -/
structure BalanceRow where
  user_id : Int
  current_balance : ℚ
  withdrawn_balance : ℚ
deriving DecidableEq

/-- Contents of the database: the tables `orders`, `user_balances` and
`withdrawals`, and the next values of the two `SERIAL` sequences. -/
structure DB where
  orders : List Order
  user_balances : List BalanceRow
  withdrawals : List Withdrawal
  orders_id_seq : Int
  withdrawals_id_seq : Int

/-- Balance of a user as the query of `GetUserBalance` reads it when the
driver reports no error: the columns of the user's row, and the zero balance
when there is no row (`sql.ErrNoRows`). -/
def DB.balance (db : DB) (userID : Int) : Balance :=
  match db.user_balances.find? (fun r => r.user_id == userID) with
  | some r => ⟨r.current_balance, r.withdrawn_balance⟩
  | none => ⟨0, 0⟩

/-- Constraint `orders.number UNIQUE`: no two rows of `orders` carry the same number. -/
def DB.WF (db : DB) : Prop :=
  (db.orders.map (fun o => o.Number)).Nodup

/-- Methods of the repository that a service call can reach. -/
inductive RepoCall where
  | GetOrderByNumber
  | CreateOrder
  | GetUserBalance
  | UpdateUserBalance
  | CreateWithdrawal
  | UpdateOrderStatus
deriving DecidableEq

/-- Environment of one service call: the reading of the clock (`time.Now()`) and,
for each repository method, the error that the database driver returns for its
statement, if any (other than `sql.ErrNoRows`).  No service call of the model
reaches the same repository method twice. -/
structure Ctx where
  now : Nat
  dbErr : RepoCall → Option String

/-- No statement of the call is answered with a driver error. -/
def Ctx.healthy (ctx : Ctx) : Prop :=
  ∀ c : RepoCall, ctx.dbErr c = none

/-- Message of the driver for a violated unique constraint. -/
def uniqueViolation (name : String) : String :=
  "pq: duplicate key value violates unique constraint \"" ++ name ++ "\""

namespace postgresRepo

/-- Model of `postgresRepo.GetOrderByNumber`: `SELECT ... WHERE number = $1`;
no row (`sql.ErrNoRows`) is `nil, nil`. -/
def GetOrderByNumber (ctx : Ctx) (db : DB) (number : String) :
    Except String (Option Order) :=
  match ctx.dbErr RepoCall.GetOrderByNumber with
  | some err => Except.error ("failed to get order by number: " ++ err)
  | none => Except.ok (db.orders.find? (fun o => o.Number == number))

/-- Model of `postgresRepo.CreateOrder`: `INSERT INTO orders ... RETURNING ...`
with status `NEW` and the current time; the returned record has no accrual
(the statement does not return that column). -/
def CreateOrder (ctx : Ctx) (db : DB) (userID : Int) (number : String) :
    Except String Order × DB :=
  match ctx.dbErr RepoCall.CreateOrder with
  | some err => (Except.error ("failed to create order: " ++ err), db)
  | none =>
    if db.orders.any (fun o => o.Number == number) then
      (Except.error ("failed to create order: " ++ uniqueViolation "orders_number_key"), db)
    else
      let order : Order :=
        ⟨db.orders_id_seq, userID, number, OrderStatusNew, none, ctx.now⟩
      (Except.ok order,
        ⟨db.orders ++ [order], db.user_balances, db.withdrawals,
          db.orders_id_seq + 1, db.withdrawals_id_seq⟩)

/-- Model of `postgresRepo.GetUserBalance`: `SELECT current_balance,
withdrawn_balance ... WHERE user_id = $1`; no row (`sql.ErrNoRows`) gives the
zero balance. -/
def GetUserBalance (ctx : Ctx) (db : DB) (userID : Int) : Except String Balance :=
  match ctx.dbErr RepoCall.GetUserBalance with
  | some err => Except.error ("failed to get user balance: " ++ err)
  | none => Except.ok (db.balance userID)

/-- The statement `INSERT INTO user_balances ... ON CONFLICT (user_id) DO UPDATE
SET current_balance = $2, withdrawn_balance = $3` on the rows of the table. -/
def upsertBalance (rows : List BalanceRow) (userID : Int) (current withdrawn : ℚ) :
    List BalanceRow :=
  if rows.any (fun r => r.user_id == userID) then
    rows.map (fun r => if r.user_id == userID then ⟨userID, current, withdrawn⟩ else r)
  else rows ++ [⟨userID, current, withdrawn⟩]

/-- Model of `postgresRepo.UpdateUserBalance`. -/
def UpdateUserBalance (ctx : Ctx) (db : DB) (userID : Int) (current withdrawn : ℚ) :
    Except String Unit × DB :=
  match ctx.dbErr RepoCall.UpdateUserBalance with
  | some err => (Except.error ("failed to update user balance: " ++ err), db)
  | none =>
    (Except.ok (),
      ⟨db.orders, upsertBalance db.user_balances userID current withdrawn, db.withdrawals,
        db.orders_id_seq, db.withdrawals_id_seq⟩)

/-- Model of `postgresRepo.CreateWithdrawal`: `INSERT INTO withdrawals ...
RETURNING ...` with the current time. -/
def CreateWithdrawal (ctx : Ctx) (db : DB) (userID : Int) (order : String) (sum : ℚ) :
    Except String Withdrawal × DB :=
  match ctx.dbErr RepoCall.CreateWithdrawal with
  | some err => (Except.error ("failed to create withdrawal: " ++ err), db)
  | none =>
    let withdrawal : Withdrawal := ⟨db.withdrawals_id_seq, userID, order, sum, ctx.now⟩
    (Except.ok withdrawal,
      ⟨db.orders, db.user_balances, db.withdrawals ++ [withdrawal],
        db.orders_id_seq, db.withdrawals_id_seq + 1⟩)

end postgresRepo

/-! ## The service (`loyaltyService`), the processor and the handler -/

namespace loyaltyService

/-- Model of `loyaltyService.UploadOrder`. -/
def UploadOrder (ctx : Ctx) (db : DB) (userID : Int) (orderNumber : String) :
    Except String Order × DB :=
  if !isValidOrderNumber orderNumber then
    (Except.error "invalid order number format", db)
  else
    match postgresRepo.GetOrderByNumber ctx db orderNumber with
    | Except.error err => (Except.error ("failed to check existing order: " ++ err), db)
    | Except.ok (some existingOrder) =>
      if existingOrder.UserID == userID then (Except.ok existingOrder, db)
      else (Except.error "order already uploaded by another user", db)
    | Except.ok none =>
      match postgresRepo.CreateOrder ctx db userID orderNumber with
      | (Except.error err, db1) => (Except.error ("failed to create order: " ++ err), db1)
      | (Except.ok order, db1) => (Except.ok order, db1)

/-- Model of `loyaltyService.Withdraw`. -/
def Withdraw (ctx : Ctx) (db : DB) (userID : Int) (order : String) (sum : ℚ) :
    Except String Withdrawal × DB :=
  if !isValidOrderNumber order then
    (Except.error "invalid order number format", db)
  else
    match postgresRepo.GetUserBalance ctx db userID with
    | Except.error err => (Except.error ("failed to get user balance: " ++ err), db)
    | Except.ok balance =>
      if balance.Current < sum then
        (Except.error "insufficient funds", db)
      else
        match postgresRepo.CreateWithdrawal ctx db userID order sum with
        | (Except.error err, db1) =>
          (Except.error ("failed to create withdrawal: " ++ err), db1)
        | (Except.ok withdrawal, db1) =>
          let newCurrent := balance.Current - sum
          let newWithdrawn := balance.Withdrawn + sum
          match postgresRepo.UpdateUserBalance ctx db1 userID newCurrent newWithdrawn with
          | (Except.error err, db2) =>
            (Except.error ("failed to update user balance: " ++ err), db2)
          | (Except.ok _, db2) => (Except.ok withdrawal, db2)

end loyaltyService

namespace OrderProcessor

/-- Model of `OrderProcessor.updateUserBalance`. -/
def updateUserBalance (ctx : Ctx) (db : DB) (userID : Int) (accrual : ℚ) :
    Except String Unit × DB :=
  match postgresRepo.GetUserBalance ctx db userID with
  | Except.error err => (Except.error ("failed to get user balance: " ++ err), db)
  | Except.ok balance =>
    let newCurrent := balance.Current + accrual
    match postgresRepo.UpdateUserBalance ctx db userID newCurrent balance.Withdrawn with
    | (Except.error err, db1) =>
      (Except.error ("failed to update user balance: " ++ err), db1)
    | (Except.ok _, db1) => (Except.ok (), db1)

end OrderProcessor

namespace Handler

/-- Model of `Handler.Withdraw` from the point where the method is `POST`, the
user is authenticated as `userID` and the body has been decoded into `req`: the
HTTP status code of the answer and the database after the request. -/
def Withdraw (ctx : Ctx) (db : DB) (userID : Int) (req : WithdrawRequest) : Nat × DB :=
  if req.Order == "" || decide (req.Sum ≤ 0) then (400, db)
  else
    match loyaltyService.Withdraw ctx db userID req.Order req.Sum with
    | (Except.error err, db1) =>
      if err == "invalid order number format" then (422, db1)
      else if err == "insufficient funds" then (402, db1)
      else (500, db1)
    | (Except.ok _, db1) => (200, db1)

end Handler

/-- The database right after `InitDB` on an empty server: no rows, sequences at 1. -/
def emptyDB : DB := ⟨[], [], [], 1, 1⟩

/-- An environment in which every statement is executed without error. -/
def okCtx (now : Nat) : Ctx := ⟨now, fun _ => none⟩

/-! ## Statements of the specification about one debit -/

/-- Specification side: between `db` and `db1` the three effects of a debit of
`amount` by user `u` against `label` are all present: `current` decreased by
`amount`, `withdrawn` increased by `amount`, one Withdrawal appended. -/
def DebitApplied (db db1 : DB) (u : Int) (label : String) (amount : ℚ) : Prop :=
  (db1.balance u).Current = (db.balance u).Current - amount ∧
  (db1.balance u).Withdrawn = (db.balance u).Withdrawn + amount ∧
  ∃ w : Withdrawal, db1.withdrawals = db.withdrawals ++ [w] ∧
    w.UserID = u ∧ w.Order = label ∧ w.Sum = amount

/-- A database in which user 1 has the balance (500, 0) and nothing else is stored. -/
def db500 : DB := ⟨[], [⟨1, 500, 0⟩], [], 1, 1⟩

/-- One call on the ledger of a user, with the environment it runs in: a credit
(`OrderProcessor.updateUserBalance`) or a debit (`loyaltyService.Withdraw`). -/
inductive LedgerCall where
  | credit (ctx : Ctx) (amount : ℚ)
  | debit (ctx : Ctx) (order : String) (amount : ℚ)

/-- Executes one ledger call for user `u`: whether the call returned no error,
and the database after it. -/
def LedgerCall.exec (u : Int) (db : DB) : LedgerCall → Bool × DB
  | LedgerCall.credit ctx amount =>
    match OrderProcessor.updateUserBalance ctx db u amount with
    | (Except.ok _, db1) => (true, db1)
    | (Except.error _, db1) => (false, db1)
  | LedgerCall.debit ctx order amount =>
    match loyaltyService.Withdraw ctx db u order amount with
    | (Except.ok _, db1) => (true, db1)
    | (Except.error _, db1) => (false, db1)

/-- Executes the calls one after another for user `u`. -/
def runLedger (u : Int) : DB → List LedgerCall → DB
  | db, [] => db
  | db, c :: cs => runLedger u (c.exec u db).2 cs

/-- Sum of the amounts of the credits of the sequence that succeed when the
sequence is executed from `db`. -/
def creditedSum (u : Int) : DB → List LedgerCall → ℚ
  | _, [] => 0
  | db, LedgerCall.credit ctx amount :: cs =>
    (if ((LedgerCall.credit ctx amount).exec u db).1 then amount else 0)
      + creditedSum u ((LedgerCall.credit ctx amount).exec u db).2 cs
  | db, LedgerCall.debit ctx order amount :: cs =>
    creditedSum u ((LedgerCall.debit ctx order amount).exec u db).2 cs

/-- Sum of the amounts of the debits of the sequence that succeed when the
sequence is executed from `db`. -/
def debitedSum (u : Int) : DB → List LedgerCall → ℚ
  | _, [] => 0
  | db, LedgerCall.credit ctx amount :: cs =>
    debitedSum u ((LedgerCall.credit ctx amount).exec u db).2 cs
  | db, LedgerCall.debit ctx order amount :: cs =>
    (if ((LedgerCall.debit ctx order amount).exec u db).1 then amount else 0)
      + debitedSum u ((LedgerCall.debit ctx order amount).exec u db).2 cs

/-! ## Further parts of the repository, the service and the processor -/

def OrderStatusProcessing : String := "PROCESSING"

def OrderStatusInvalid : String := "INVALID"

def OrderStatusProcessed : String := "PROCESSED"

/-- Constraint `user_balances.user_id PRIMARY KEY`: no two rows for one user. -/
def DB.BalanceKey (db : DB) : Prop :=
  (db.user_balances.map (fun r => r.user_id)).Nodup

namespace postgresRepo

/-- Model of `postgresRepo.UpdateOrderStatus`: `UPDATE orders SET status = $1,
accrual = $2 WHERE id = $3`.  The statement has no condition on the stored
status, and a statement that matches no row is not an error. -/
def UpdateOrderStatus (ctx : Ctx) (db : DB) (orderID : Int) (status : String)
    (accrual : Option ℚ) : Except String Unit × DB :=
  match ctx.dbErr RepoCall.UpdateOrderStatus with
  | some err => (Except.error ("failed to update order status: " ++ err), db)
  | none =>
    (Except.ok (),
      ⟨db.orders.map (fun o =>
          if o.ID == orderID then ⟨o.ID, o.UserID, o.Number, status, accrual, o.UploadedAt⟩
          else o),
        db.user_balances, db.withdrawals, db.orders_id_seq, db.withdrawals_id_seq⟩)

end postgresRepo

/-- Record of `models.AccrualResponse`. -/
structure AccrualResponse where
  Order : String
  Status : String
  Accrual : Option ℚ
deriving DecidableEq

/-- An answer of the accrual system to one request: the status code, the
`Retry-After` header if present, and the result of decoding the body as the
JSON of an `AccrualResponse` (the decoded record, or the decoder's error). -/
structure HTTPResponse where
  StatusCode : Nat
  RetryAfter : Option String
  Body : Except String AccrualResponse

namespace loyaltyService

/-- Model of `loyaltyService.GetBalance`. -/
def GetBalance (ctx : Ctx) (db : DB) (userID : Int) : Except String Balance :=
  postgresRepo.GetUserBalance ctx db userID

/-- Model of `loyaltyService.ProcessOrders`: the body only returns `nil`. -/
def ProcessOrders (_ctx : Ctx) (db : DB) : Except String Unit × DB :=
  (Except.ok (), db)

/-- Model of `loyaltyService.checkAccrualSystem`; `http` is what `http.Get`
returns for a URL: a transport error or the answer.  On 200 the body is not
parsed and the zero record is returned. -/
def checkAccrualSystem (accrualSystemAddress : String)
    (http : String → Except String HTTPResponse) (orderNumber : String) :
    Except String (Option AccrualResponse) :=
  if accrualSystemAddress == "" then
    Except.error "accrual system address not configured"
  else
    match http (accrualSystemAddress ++ "/api/orders/" ++ orderNumber) with
    | Except.error err => Except.error ("failed to request accrual system: " ++ err)
    | Except.ok resp =>
      if resp.StatusCode = 200 then Except.ok (some ⟨"", "", none⟩)
      else if resp.StatusCode = 204 then Except.ok none
      else if resp.StatusCode = 429 then Except.error "rate limit exceeded"
      else Except.error ("accrual system error: " ++ toString resp.StatusCode)

end loyaltyService

namespace OrderProcessor

/-- Model of `OrderProcessor.processNewOrders`, one tick of the worker: the
body only returns `nil`.  The address of the accrual system and the accrual
system itself are within reach of the processor and are not used. -/
def processNewOrders (_accrualSystemAddress : String)
    (_http : String → Except String HTTPResponse) (_ctx : Ctx) (db : DB) :
    Except String Unit × DB :=
  (Except.ok (), db)

/-- Model of `OrderProcessor.checkAccrualSystem`; `http` is what `client.Get`
returns for a URL: a transport error (a timeout among them) or the answer. -/
def checkAccrualSystem (accrualSystemAddress : String)
    (http : String → Except String HTTPResponse) (orderNumber : String) :
    Except String (Option AccrualResponse) :=
  if accrualSystemAddress == "" then
    Except.error "accrual system address not configured"
  else
    match http (accrualSystemAddress ++ "/api/orders/" ++ orderNumber) with
    | Except.error err => Except.error ("failed to request accrual system: " ++ err)
    | Except.ok resp =>
      if resp.StatusCode = 200 then
        match resp.Body with
        | Except.error err => Except.error ("failed to decode accrual response: " ++ err)
        | Except.ok accrualResp => Except.ok (some accrualResp)
      else if resp.StatusCode = 204 then Except.ok none
      else if resp.StatusCode = 429 then Except.error "rate limit exceeded"
      else Except.error ("accrual system error: " ++ toString resp.StatusCode)

/-- Model of `OrderProcessor.updateOrderStatus`. -/
def updateOrderStatus (ctx : Ctx) (db : DB) (orderID : Int) (status : String)
    (accrual : Option ℚ) : Except String Unit × DB :=
  postgresRepo.UpdateOrderStatus ctx db orderID status accrual

end OrderProcessor

/-- White space as `unicode.IsSpace` of the Go library defines it: in Latin-1
the characters `\t \n \v \f \r`, space, U+0085 and U+00A0, and beyond Latin-1
the characters with the property White_Space. -/
def isSpace (c : Char) : Bool :=
  let r := c.toNat
  r = 9 || r = 10 || r = 11 || r = 12 || r = 13 || r = 32 || r = 0x85 || r = 0xA0 ||
    r = 0x1680 || (0x2000 ≤ r && r ≤ 0x200A) || r = 0x2028 || r = 0x2029 ||
    r = 0x202F || r = 0x205F || r = 0x3000

/-- Model of `strings.TrimSpace` of the Go library: the string without its
leading and trailing white space. -/
def TrimSpace (s : String) : String :=
  ⟨((s.data.dropWhile isSpace).reverse.dropWhile isSpace).reverse⟩

namespace Handler

/-- Model of `Handler.UploadOrder` from the point where the method is `POST`, the
user is authenticated as `userID` and the body of the request has been read:
the HTTP status code of the answer and the database after the request. -/
def UploadOrder (ctx : Ctx) (db : DB) (userID : Int) (body : String) : Nat × DB :=
  let orderNumber := TrimSpace body
  if orderNumber == "" then (400, db)
  else
    match loyaltyService.UploadOrder ctx db userID orderNumber with
    | (Except.error err, db1) =>
      if err == "invalid order number format" then (422, db1)
      else if err == "order already uploaded by another user" then (409, db1)
      else (500, db1)
    | (Except.ok order, db1) =>
      if order.Status == OrderStatusNew then (200, db1) else (202, db1)

end Handler

/-- One call of `loyaltyService.UploadOrder` with the environment it runs in. -/
structure UploadCall where
  ctx : Ctx
  userID : Int
  orderNumber : String

/-- Executes the uploads one after another. -/
def runUploads : DB → List UploadCall → DB
  | db, [] => db
  | db, c :: cs =>
    runUploads (loyaltyService.UploadOrder c.ctx db c.userID c.orderNumber).2 cs

/-- A database in which user 1 has just uploaded the order number of the tests. -/
def dbUploaded : DB := ⟨[⟨1, 1, "12345678903", "NEW", none, 10⟩], [], [], 2, 1⟩

/-- An accrual system that answers every request with 200 and the verdict
`PROCESSED` with accrual 500 for the order number of the tests. -/
def processedOracle : String → Except String HTTPResponse :=
  fun _ => Except.ok ⟨200, none, Except.ok ⟨"12345678903", "PROCESSED", some 500⟩⟩

/-- An accrual system that answers every request with 429 and the given
`Retry-After` header. -/
def throttlingOracle (retryAfter : String) : String → Except String HTTPResponse :=
  fun _ => Except.ok ⟨429, some retryAfter, Except.error "EOF"⟩

/-! ## Lemmas on digits -/

theorem not_digit_iff (c : Char) : (c < '0' || c > '9') = !c.isDigit := by
  have h0 : (c < '0') ↔ c.val.toNat < 48 := Iff.rfl
  have h9 : (c > '9') ↔ 57 < c.val.toNat := Iff.rfl
  have hd : c.isDigit = (decide (48 ≤ c.val.toNat) && decide (c.val.toNat ≤ 57)) := rfl
  rw [hd]
  by_cases a : c.val.toNat < 48 <;> by_cases b : 57 < c.val.toNat
  all_goals simp [h0, h9, a, b]
  all_goals omega

theorem isDigit_cases (c : Char) (h : c.isDigit = true) :
    c ∈ ['0', '1', '2', '3', '4', '5', '6', '7', '8', '9'] := by
  have hd : c.isDigit = (decide (48 ≤ c.val.toNat) && decide (c.val.toNat ≤ 57)) := rfl
  rw [hd] at h
  simp only [Bool.and_eq_true, decide_eq_true_eq] at h
  obtain ⟨ha, hb⟩ := h
  have h2 : c = Char.ofNat c.toNat := (Char.ofNat_toNat c).symm
  have ha' : 48 ≤ c.toNat := ha
  have hb' : c.toNat ≤ 57 := hb
  rw [h2]
  generalize c.toNat = n at ha' hb'
  interval_cases n <;> decide

theorem digit_bytes (c : Char) (h : c.isDigit = true) :
    (String.utf8EncodeChar c).map UInt8.toNat = [c.toNat] ∧
      atoiByte c.toNat = digitValue c ∧ digitValue c ≤ 9 := by
  have := isDigit_cases c h
  simp only [List.mem_cons, List.mem_singleton, List.not_mem_nil, or_false] at this
  rcases this with h | h | h | h | h | h | h | h | h | h <;> subst h <;> decide

theorem goBytes_digits (cs : List Char) (h : ∀ c ∈ cs, c.isDigit = true) :
    goBytes ⟨cs⟩ = cs.map Char.toNat := by
  induction cs with
  | nil => rfl
  | cons c cs ih =>
    have hc := (digit_bytes c (h c (List.mem_cons_self _ _))).1
    have ih' := ih (fun x hx => h x (List.mem_cons_of_mem _ hx))
    simp only [goBytes, List.flatMap_cons, List.map_cons] at ih' ⊢
    rw [hc, ih']
    rfl

theorem any_not_digit_false (cs : List Char) (h : ∀ c ∈ cs, c.isDigit = true) :
    cs.any (fun char => char < '0' || char > '9') = false := by
  rw [List.any_eq_false]
  intro c hc
  rw [not_digit_iff, h c hc]
  simp

theorem any_not_digit_true (cs : List Char) (c : Char) (hc : c ∈ cs)
    (h : c.isDigit = false) :
    cs.any (fun char => char < '0' || char > '9') = true := by
  rw [List.any_eq_true]
  exact ⟨c, hc, by rw [not_digit_iff, h]; rfl⟩

theorem luhnDigit_eq_spec (alternate : Bool) (pos d : Nat) (hd : d ≤ 9)
    (hp : pos % 2 = 1 ↔ alternate = true) :
    luhnDigit alternate d = specLuhnTerm pos d := by
  unfold luhnDigit specLuhnTerm
  cases alternate
  · have : ¬ pos % 2 = 1 := fun h => by simpa using hp.1 h
    simp [this]
  · have : pos % 2 = 1 := hp.2 rfl
    simp only [this, if_true]
    split_ifs <;> omega

theorem luhnLoop_eq_spec (cs : List Char) (h : ∀ c ∈ cs, c.isDigit = true) :
    ∀ (sum : Nat) (alternate : Bool) (pos : Nat), (pos % 2 = 1 ↔ alternate = true) →
      luhnLoop (cs.map Char.toNat) sum alternate
        = sum + specLuhnFrom pos (cs.map digitValue) := by
  induction cs with
  | nil => intro sum alternate pos _; simp [luhnLoop, specLuhnFrom]
  | cons c cs ih =>
    intro sum alternate pos hp
    obtain ⟨_, hat, hle⟩ := digit_bytes c (h c (List.mem_cons_self _ _))
    have hp' : (pos + 1) % 2 = 1 ↔ (!alternate) = true := by
      cases alternate
      · have : ¬ pos % 2 = 1 := fun h => by simpa using hp.1 h
        simp; omega
      · have : pos % 2 = 1 := hp.2 rfl
        simp; omega
    simp only [List.map_cons, luhnLoop, specLuhnFrom]
    rw [ih (fun x hx => h x (List.mem_cons_of_mem _ hx)) _ _ (pos + 1) hp', hat,
      luhnDigit_eq_spec alternate pos _ hle hp]
    omega

theorem isValidOrderNumber_digits (s : String) (hd : ∀ c ∈ s.data, c.isDigit = true)
    (hl : 2 ≤ s.length) :
    isValidOrderNumber s = (specLuhnSum s % 10 == 0) := by
  obtain ⟨cs⟩ := s
  have hb := goBytes_digits cs hd
  have hlen : ¬ (cs.map Char.toNat).length < 2 := by
    simpa [String.length] using hl
  have hloop := luhnLoop_eq_spec cs.reverse
    (fun c hc => hd c (List.mem_reverse.mp hc)) 0 false 0 (by simp)
  simp only [isValidOrderNumber, hb, hlen, any_not_digit_false cs hd, if_false,
    Bool.false_eq_true, specLuhnSum]
  rw [← List.map_reverse, hloop, Nat.zero_add]


/-! ## Lemmas on the table `orders` -/

theorem find_absent (orders : List Order) (n : String)
    (h : ∀ o ∈ orders, o.Number ≠ n) :
    orders.find? (fun o => o.Number == n) = none ∧
      orders.any (fun o => o.Number == n) = false ∧
      orders.filter (fun o => o.Number == n) = [] := by
  refine ⟨?_, ?_, ?_⟩
  · rw [List.find?_eq_none]
    intro o ho
    simpa using h o ho
  · rw [List.any_eq_false]
    intro o ho
    simpa using h o ho
  · rw [List.filter_eq_nil_iff]
    intro o ho
    simpa using h o ho

theorem find_present (orders : List Order) (o : Order)
    (hnd : (orders.map (fun x => x.Number)).Nodup) (ho : o ∈ orders) :
    orders.find? (fun x => x.Number == o.Number) = some o ∧
      orders.filter (fun x => x.Number == o.Number) = [o] := by
  induction orders with
  | nil => cases ho
  | cons x xs ih =>
    rw [List.map_cons, List.nodup_cons] at hnd
    obtain ⟨hx, hxs⟩ := hnd
    rcases List.mem_cons.mp ho with rfl | hmem
    · have habs : ∀ y ∈ xs, y.Number ≠ o.Number := by
        intro y hy heq
        exact hx (List.mem_map.mpr ⟨y, hy, heq⟩)
      have := (find_absent xs o.Number habs).2.2
      simp [List.find?_cons, List.filter_cons, this]
    · have hne : x.Number ≠ o.Number := by
        intro heq
        exact hx (List.mem_map.mpr ⟨o, hmem, heq.symm⟩)
      have hb : (x.Number == o.Number) = false := by simpa using hne
      obtain ⟨h1, h2⟩ := ih hxs hmem
      simp [List.find?_cons, List.filter_cons, hb, h1, h2]

theorem find_some_spec (orders : List Order) (n : String) (o : Order)
    (h : orders.find? (fun x => x.Number == n) = some o) :
    o ∈ orders ∧ o.Number = n := by
  have h1 := List.mem_of_find?_eq_some h
  have h2 := List.find?_some h
  exact ⟨h1, by simpa using h2⟩

/-! ## Lemmas on balances and on `Withdraw` -/

theorem find_map_replace (rows : List BalanceRow) (u : Int) (c w : ℚ)
    (h : rows.any (fun r => r.user_id == u) = true) :
    (rows.map (fun r => if r.user_id == u then (⟨u, c, w⟩ : BalanceRow) else r)).find?
      (fun r => r.user_id == u) = some ⟨u, c, w⟩ := by
  induction rows with
  | nil => simp at h
  | cons r rs ih =>
    by_cases hr : r.user_id = u
    · have hb : (r.user_id == u) = true := by simpa using hr
      rw [List.map_cons, hb, if_pos rfl, List.find?_cons]
      have hb2 : ((⟨u, c, w⟩ : BalanceRow).user_id == u) = true := by simp
      rw [hb2]
    · have hb : (r.user_id == u) = false := by simpa using hr
      have h' : rs.any (fun r => r.user_id == u) = true := by
        rw [List.any_cons, hb, Bool.false_or] at h
        exact h
      rw [List.map_cons, hb, List.find?_cons]
      simp only [Bool.false_eq_true, if_false, hb]
      exact ih h'

theorem balance_upsert (rows : List BalanceRow) (u : Int) (c w : ℚ) :
    (postgresRepo.upsertBalance rows u c w).find? (fun r => r.user_id == u)
      = some ⟨u, c, w⟩ := by
  unfold postgresRepo.upsertBalance
  split_ifs with h
  · exact find_map_replace rows u c w h
  · have hnone : rows.find? (fun r => r.user_id == u) = none := by
      rw [List.find?_eq_none]
      intro r hr hru
      exact h (List.any_eq_true.mpr ⟨r, hr, hru⟩)
    simp [List.find?_append, hnone]

theorem string_append_ne (p q x : String) (a b : Char) (as bs : List Char)
    (hp : p.data = a :: as) (hq : q.data = b :: bs) (hab : a ≠ b) : p ++ x ≠ q := by
  intro h
  have hd := congrArg String.data h
  rw [String.data_append, hp, hq] at hd
  simp only [List.cons_append, List.cons.injEq] at hd
  exact hab hd.1

/-- Outcome of `Withdraw` with an order label that the validator rejects. -/
theorem Withdraw_invalid (ctx : Ctx) (db : DB) (u : Int) (label : String) (amount : ℚ)
    (hv : isValidOrderNumber label = false) :
    Withdraw ctx db u label amount = (Except.error "invalid order number format", db) := by
  simp [Withdraw, hv]

/-- Outcome of `Withdraw` when reading the balance fails. -/
theorem Withdraw_read_fault (ctx : Ctx) (db : DB) (u : Int) (label : String) (amount : ℚ)
    (e : String) (hv : isValidOrderNumber label = true)
    (hg : ctx.dbErr RepoCall.GetUserBalance = some e) :
    Withdraw ctx db u label amount
      = (Except.error ("failed to get user balance: " ++ ("failed to get user balance: " ++ e)),
          db) := by
  simp [Withdraw, postgresRepo.GetUserBalance, hv, hg]

/-- Outcome of `Withdraw` when the balance does not cover the amount. -/
theorem Withdraw_insufficient (ctx : Ctx) (db : DB) (u : Int) (label : String) (amount : ℚ)
    (hv : isValidOrderNumber label = true)
    (hg : ctx.dbErr RepoCall.GetUserBalance = none)
    (hlt : (db.balance u).Current < amount) :
    Withdraw ctx db u label amount = (Except.error "insufficient funds", db) := by
  simp [Withdraw, postgresRepo.GetUserBalance, hv, hg, hlt]

/-- Outcome of `Withdraw` when inserting the withdrawal fails. -/
theorem Withdraw_insert_fault (ctx : Ctx) (db : DB) (u : Int) (label : String) (amount : ℚ)
    (e : String) (hv : isValidOrderNumber label = true)
    (hg : ctx.dbErr RepoCall.GetUserBalance = none)
    (hge : ¬ (db.balance u).Current < amount)
    (hw : ctx.dbErr RepoCall.CreateWithdrawal = some e) :
    Withdraw ctx db u label amount
      = (Except.error ("failed to create withdrawal: " ++ ("failed to create withdrawal: " ++ e)),
          db) := by
  simp [Withdraw, postgresRepo.GetUserBalance, postgresRepo.CreateWithdrawal, hv, hg, hge, hw]

/-- Outcome of `Withdraw` when the withdrawal is inserted and writing the
balance fails: the call fails and the inserted row stays. -/
theorem Withdraw_update_fault (ctx : Ctx) (db : DB) (u : Int) (label : String) (amount : ℚ)
    (e : String) (hv : isValidOrderNumber label = true)
    (hg : ctx.dbErr RepoCall.GetUserBalance = none)
    (hge : ¬ (db.balance u).Current < amount)
    (hw : ctx.dbErr RepoCall.CreateWithdrawal = none)
    (hu : ctx.dbErr RepoCall.UpdateUserBalance = some e) :
    Withdraw ctx db u label amount
      = (Except.error ("failed to update user balance: " ++ ("failed to update user balance: " ++ e)),
          ⟨db.orders, db.user_balances,
            db.withdrawals ++ [⟨db.withdrawals_id_seq, u, label, amount, ctx.now⟩],
            db.orders_id_seq, db.withdrawals_id_seq + 1⟩) := by
  simp [Withdraw, postgresRepo.GetUserBalance, postgresRepo.CreateWithdrawal,
    postgresRepo.UpdateUserBalance, hv, hg, hge, hw, hu]

/-- Outcome of `Withdraw` when the balance covers the amount and no statement fails. -/
theorem Withdraw_ok (ctx : Ctx) (db : DB) (u : Int) (label : String) (amount : ℚ)
    (hv : isValidOrderNumber label = true)
    (hg : ctx.dbErr RepoCall.GetUserBalance = none)
    (hge : ¬ (db.balance u).Current < amount)
    (hw : ctx.dbErr RepoCall.CreateWithdrawal = none)
    (hu : ctx.dbErr RepoCall.UpdateUserBalance = none) :
    Withdraw ctx db u label amount
      = (Except.ok ⟨db.withdrawals_id_seq, u, label, amount, ctx.now⟩,
          ⟨db.orders,
            postgresRepo.upsertBalance db.user_balances u
              ((db.balance u).Current - amount) ((db.balance u).Withdrawn + amount),
            db.withdrawals ++ [⟨db.withdrawals_id_seq, u, label, amount, ctx.now⟩],
            db.orders_id_seq, db.withdrawals_id_seq + 1⟩) := by
  simp [Withdraw, postgresRepo.GetUserBalance, postgresRepo.CreateWithdrawal,
    postgresRepo.UpdateUserBalance, hv, hg, hge, hw, hu]

theorem balance_after_upsert (o : List Order) (rows : List BalanceRow) (ws : List Withdrawal)
    (i j : Int) (u : Int) (c w : ℚ) :
    DB.balance ⟨o, postgresRepo.upsertBalance rows u c w, ws, i, j⟩ u = ⟨c, w⟩ := by
  simp [DB.balance, balance_upsert]


/-! ## Lemmas on credits and on sequences of calls -/

theorem balance_congr (db db1 : DB) (u : Int) (h : db1.user_balances = db.user_balances) :
    db1.balance u = db.balance u := by
  simp [DB.balance, h]

/-- Outcome of `updateUserBalance` when no statement fails: no amount is refused. -/
theorem updateUserBalance_ok (ctx : Ctx) (db : DB) (u : Int) (amount : ℚ)
    (hg : ctx.dbErr RepoCall.GetUserBalance = none)
    (hu : ctx.dbErr RepoCall.UpdateUserBalance = none) :
    OrderProcessor.updateUserBalance ctx db u amount
      = (Except.ok (),
          ⟨db.orders,
            postgresRepo.upsertBalance db.user_balances u
              ((db.balance u).Current + amount) (db.balance u).Withdrawn,
            db.withdrawals, db.orders_id_seq, db.withdrawals_id_seq⟩) := by
  simp [OrderProcessor.updateUserBalance, postgresRepo.GetUserBalance,
    postgresRepo.UpdateUserBalance, hg, hu]

/-- Outcome of `updateUserBalance` when a statement fails: an error, nothing changed. -/
theorem updateUserBalance_fault (ctx : Ctx) (db : DB) (u : Int) (amount : ℚ)
    (h : ¬ (ctx.dbErr RepoCall.GetUserBalance = none ∧
      ctx.dbErr RepoCall.UpdateUserBalance = none)) :
    ∃ e, OrderProcessor.updateUserBalance ctx db u amount = (Except.error e, db) := by
  cases hg : ctx.dbErr RepoCall.GetUserBalance with
  | some e =>
    exact ⟨_, by simp [OrderProcessor.updateUserBalance, postgresRepo.GetUserBalance, hg]; rfl⟩
  | none =>
    cases hu : ctx.dbErr RepoCall.UpdateUserBalance with
    | some e =>
      exact ⟨_, by
        simp [OrderProcessor.updateUserBalance, postgresRepo.GetUserBalance,
          postgresRepo.UpdateUserBalance, hg, hu]; rfl⟩
    | none => exact absurd ⟨hg, hu⟩ h

/-- Effect of `updateUserBalance` on the balance: on success `current` grows by
the amount, on failure nothing changes; `withdrawn` and the withdrawals never change. -/
theorem updateUserBalance_effect (ctx : Ctx) (db : DB) (u : Int) (amount : ℚ) :
    (((OrderProcessor.updateUserBalance ctx db u amount).1 = Except.ok () ∧
        ((OrderProcessor.updateUserBalance ctx db u amount).2.balance u).Current
          = (db.balance u).Current + amount) ∨
      ((∃ e, (OrderProcessor.updateUserBalance ctx db u amount).1 = Except.error e) ∧
        ((OrderProcessor.updateUserBalance ctx db u amount).2.balance u).Current
          = (db.balance u).Current)) ∧
    ((OrderProcessor.updateUserBalance ctx db u amount).2.balance u).Withdrawn
      = (db.balance u).Withdrawn ∧
    (OrderProcessor.updateUserBalance ctx db u amount).2.withdrawals = db.withdrawals := by
  by_cases h : ctx.dbErr RepoCall.GetUserBalance = none ∧
      ctx.dbErr RepoCall.UpdateUserBalance = none
  · rw [updateUserBalance_ok ctx db u amount h.1 h.2]
    refine ⟨Or.inl ⟨rfl, ?_⟩, ?_, rfl⟩
    · rw [balance_after_upsert]
    · rw [balance_after_upsert]
  · obtain ⟨e, he⟩ := updateUserBalance_fault ctx db u amount h
    rw [he]
    exact ⟨Or.inr ⟨⟨e, rfl⟩, rfl⟩, rfl, rfl⟩

/-- Every outcome of `Withdraw`: success with the three effects applied, or
failure with the balance rows unchanged and at most the Withdrawal of a failed
balance update stored. -/
theorem Withdraw_outcomes (ctx : Ctx) (db : DB) (u : Int) (label : String) (amount : ℚ) :
    ((∃ w, (Withdraw ctx db u label amount).1 = Except.ok w) ∧
        ¬ (db.balance u).Current < amount ∧
        DebitApplied db (Withdraw ctx db u label amount).2 u label amount) ∨
    ((∃ e, (Withdraw ctx db u label amount).1 = Except.error e) ∧
        (Withdraw ctx db u label amount).2.user_balances = db.user_balances ∧
        ((Withdraw ctx db u label amount).2.withdrawals = db.withdrawals ∨
          ((∃ e, ctx.dbErr RepoCall.UpdateUserBalance = some e) ∧
            ∃ w : Withdrawal,
              (Withdraw ctx db u label amount).2.withdrawals = db.withdrawals ++ [w] ∧
              w.UserID = u ∧ w.Order = label ∧ w.Sum = amount))) := by
  cases hv : isValidOrderNumber label with
  | false =>
    rw [Withdraw_invalid ctx db u label amount hv]
    exact Or.inr ⟨⟨_, rfl⟩, rfl, Or.inl rfl⟩
  | true =>
    cases hg : ctx.dbErr RepoCall.GetUserBalance with
    | some e =>
      rw [Withdraw_read_fault ctx db u label amount e hv hg]
      exact Or.inr ⟨⟨_, rfl⟩, rfl, Or.inl rfl⟩
    | none =>
      by_cases hlt : (db.balance u).Current < amount
      · rw [Withdraw_insufficient ctx db u label amount hv hg hlt]
        exact Or.inr ⟨⟨_, rfl⟩, rfl, Or.inl rfl⟩
      · cases hw : ctx.dbErr RepoCall.CreateWithdrawal with
        | some e =>
          rw [Withdraw_insert_fault ctx db u label amount e hv hg hlt hw]
          exact Or.inr ⟨⟨_, rfl⟩, rfl, Or.inl rfl⟩
        | none =>
          cases hu : ctx.dbErr RepoCall.UpdateUserBalance with
          | some e =>
            rw [Withdraw_update_fault ctx db u label amount e hv hg hlt hw hu]
            exact Or.inr ⟨⟨_, rfl⟩, rfl, Or.inr ⟨⟨e, rfl⟩, _, rfl, rfl, rfl, rfl⟩⟩
          | none =>
            rw [Withdraw_ok ctx db u label amount hv hg hlt hw hu]
            refine Or.inl ⟨⟨_, rfl⟩, hlt, ?_, ?_, _, rfl, rfl, rfl, rfl⟩
            · simp only [balance_after_upsert]
            · simp only [balance_after_upsert]

/-- Effect of one ledger call on `current`. -/
theorem exec_current (u : Int) (db : DB) (c : LedgerCall) :
    ((c.exec u db).2.balance u).Current
      = (db.balance u).Current + creditedSum u db [c] - debitedSum u db [c] := by
  cases c with
  | credit ctx amount =>
    simp only [creditedSum, debitedSum, add_zero, sub_zero]
    rcases (updateUserBalance_effect ctx db u amount).1 with ⟨h1, h2⟩ | ⟨⟨e, h1⟩, h2⟩
    · have hx : (LedgerCall.credit ctx amount).exec u db
          = (true, (OrderProcessor.updateUserBalance ctx db u amount).2) := by
        simp only [LedgerCall.exec]
        split <;> simp_all
      rw [hx]
      simp [h2]
    · have hx : (LedgerCall.credit ctx amount).exec u db
          = (false, (OrderProcessor.updateUserBalance ctx db u amount).2) := by
        simp only [LedgerCall.exec]
        split <;> simp_all
      rw [hx]
      simp [h2]
  | debit ctx order amount =>
    simp only [creditedSum, debitedSum, add_zero]
    rcases Withdraw_outcomes ctx db u order amount with ⟨⟨w, h1⟩, _, h2, _⟩ | ⟨⟨e, h1⟩, h2, _⟩
    · have hx : (LedgerCall.debit ctx order amount).exec u db
          = (true, (Withdraw ctx db u order amount).2) := by
        simp only [LedgerCall.exec]
        split <;> simp_all
      rw [hx]
      simp [h2]
    · have hx : (LedgerCall.debit ctx order amount).exec u db
          = (false, (Withdraw ctx db u order amount).2) := by
        simp only [LedgerCall.exec]
        split <;> simp_all
      rw [hx]
      simp [balance_congr _ _ u h2]

theorem creditedSum_cons (u : Int) (db : DB) (c : LedgerCall) (cs : List LedgerCall) :
    creditedSum u db (c :: cs) = creditedSum u db [c] + creditedSum u (c.exec u db).2 cs := by
  cases c <;> simp [creditedSum]

theorem debitedSum_cons (u : Int) (db : DB) (c : LedgerCall) (cs : List LedgerCall) :
    debitedSum u db (c :: cs) = debitedSum u db [c] + debitedSum u (c.exec u db).2 cs := by
  cases c <;> simp [debitedSum]

/-- Sum law from any starting balance. -/
theorem ledger_sum (u : Int) (calls : List LedgerCall) :
    ∀ db : DB, ((runLedger u db calls).balance u).Current
      = (db.balance u).Current + creditedSum u db calls - debitedSum u db calls := by
  induction calls with
  | nil => intro db; simp [runLedger, creditedSum, debitedSum]
  | cons c cs ih =>
    intro db
    rw [runLedger, ih, exec_current, creditedSum_cons u db c cs, debitedSum_cons u db c cs]
    ring

theorem runLedger_append (u : Int) (pre post : List LedgerCall) :
    ∀ db : DB, runLedger u db (pre ++ post) = runLedger u (runLedger u db pre) post := by
  induction pre with
  | nil => intro db; rfl
  | cons c cs ih =>
    intro db
    rw [List.cons_append, runLedger, runLedger, ih]

/-- After a debit that succeeded, `current` is not negative. -/
theorem debit_ok_nonneg (u : Int) (db : DB) (ctx : Ctx) (order : String) (amount : ℚ)
    (h : ((LedgerCall.debit ctx order amount).exec u db).1 = true) :
    0 ≤ (((LedgerCall.debit ctx order amount).exec u db).2.balance u).Current := by
  rcases Withdraw_outcomes ctx db u order amount with
    ⟨⟨w, h1⟩, hge, h2, _⟩ | ⟨⟨e, h1⟩, _, _⟩
  · have hx : (LedgerCall.debit ctx order amount).exec u db
        = (true, (Withdraw ctx db u order amount).2) := by
      simp only [LedgerCall.exec]
      split <;> simp_all
    rw [hx]
    simp only []
    rw [h2]
    exact sub_nonneg.mpr (not_lt.mp hge)
  · have hx : (LedgerCall.debit ctx order amount).exec u db
        = (false, (Withdraw ctx db u order amount).2) := by
      simp only [LedgerCall.exec]
      split <;> simp_all
    rw [hx] at h
    cases h

/-- A call keeps `current` non-negative when it is a debit or a credit of a
non-negative amount. -/
theorem exec_nonneg (u : Int) (db : DB) (c : LedgerCall)
    (h0 : 0 ≤ (db.balance u).Current)
    (hc : ∀ ctx amount, c = LedgerCall.credit ctx amount → 0 ≤ amount) :
    0 ≤ ((c.exec u db).2.balance u).Current := by
  cases c with
  | credit ctx amount =>
    have ha : 0 ≤ amount := hc ctx amount rfl
    have hcur := exec_current u db (LedgerCall.credit ctx amount)
    simp only [creditedSum, debitedSum, add_zero, sub_zero] at hcur
    rw [hcur]
    split_ifs
    · exact add_nonneg h0 ha
    · simpa using h0
  | debit ctx order amount =>
    cases hs : ((LedgerCall.debit ctx order amount).exec u db).1 with
    | true => exact debit_ok_nonneg u db ctx order amount hs
    | false =>
      have hcur := exec_current u db (LedgerCall.debit ctx order amount)
      simp only [creditedSum, debitedSum, add_zero, hs] at hcur
      rw [hcur]
      simpa using h0

theorem runLedger_nonneg (u : Int) (calls : List LedgerCall)
    (hc : ∀ ctx amount, LedgerCall.credit ctx amount ∈ calls → 0 ≤ amount) :
    ∀ db : DB, 0 ≤ (db.balance u).Current →
      0 ≤ ((runLedger u db calls).balance u).Current := by
  induction calls with
  | nil => intro db h0; exact h0
  | cons c cs ih =>
    intro db h0
    rw [runLedger]
    apply ih (fun ctx amount hm => hc ctx amount (List.mem_cons_of_mem _ hm))
    exact exec_nonneg u db c h0
      (fun ctx amount he => hc ctx amount (by rw [he]; exact List.mem_cons_self _ _))

theorem balance_no_row (db : DB) (u : Int) (h : ∀ r ∈ db.user_balances, r.user_id ≠ u) :
    db.balance u = ⟨0, 0⟩ := by
  have hnone : db.user_balances.find? (fun r => r.user_id == u) = none := by
    rw [List.find?_eq_none]
    intro r hr
    simpa using h r hr
  simp [DB.balance, hnone]

theorem valid_test_number : isValidOrderNumber "12345678903" = true := by decide

/-! ## Lemmas on sequences of uploads -/

/-- Outcome of `UploadOrder` with a number that the validator rejects. -/
theorem UploadOrder_invalid (ctx : Ctx) (db : DB) (u : Int) (n : String)
    (hv : isValidOrderNumber n = false) :
    UploadOrder ctx db u n = (Except.error "invalid order number format", db) := by
  simp [UploadOrder, hv]

/-- One upload leaves the database as it was or appends one order whose number
no stored order carries. -/
theorem UploadOrder_step (ctx : Ctx) (db : DB) (u : Int) (n : String) :
    (UploadOrder ctx db u n).2 = db ∨
    ∃ o : Order, (UploadOrder ctx db u n).2.orders = db.orders ++ [o] ∧
      ∀ x ∈ db.orders, x.Number ≠ o.Number := by
  unfold UploadOrder
  split_ifs with hv
  · exact Or.inl rfl
  · cases hg : postgresRepo.GetOrderByNumber ctx db n with
    | error e => exact Or.inl rfl
    | ok found =>
      cases found with
      | some existing =>
        simp only []
        split_ifs <;> exact Or.inl rfl
      | none =>
        simp only []
        unfold postgresRepo.CreateOrder
        cases hc : ctx.dbErr RepoCall.CreateOrder with
        | some e => exact Or.inl rfl
        | none =>
          simp only []
          split_ifs with hany
          · exact Or.inl rfl
          · refine Or.inr ⟨_, rfl, ?_⟩
            intro x hx heq
            apply hany
            rw [List.any_eq_true]
            exact ⟨x, hx, by simpa using heq⟩

theorem UploadOrder_keeps (ctx : Ctx) (db : DB) (u : Int) (n : String) (hwf : db.WF) :
    (UploadOrder ctx db u n).2.WF ∧
      ∀ o ∈ db.orders, o ∈ (UploadOrder ctx db u n).2.orders := by
  rcases UploadOrder_step ctx db u n with h | ⟨o, h, hnew⟩
  · rw [h]
    exact ⟨hwf, fun _ ho => ho⟩
  · refine ⟨?_, ?_⟩
    · unfold DB.WF at hwf ⊢
      rw [h, List.map_append, List.nodup_append]
      refine ⟨hwf, by simp, ?_⟩
      intro a ha hb
      simp only [List.map_cons, List.map_nil, List.mem_singleton] at hb
      obtain ⟨x, hx, hxa⟩ := List.mem_map.mp ha
      exact hnew x hx (by rw [hxa, hb])
    · intro x hx
      rw [h]
      exact List.mem_append_left _ hx

theorem runUploads_keeps (calls : List UploadCall) :
    ∀ db : DB, db.WF →
      (runUploads db calls).WF ∧ ∀ o ∈ db.orders, o ∈ (runUploads db calls).orders := by
  induction calls with
  | nil => intro db hwf; exact ⟨hwf, fun _ ho => ho⟩
  | cons c cs ih =>
    intro db hwf
    obtain ⟨h1, h2⟩ := UploadOrder_keeps c.ctx db c.userID c.orderNumber hwf
    obtain ⟨h3, h4⟩ := ih _ h1
    rw [runUploads]
    exact ⟨h3, fun o ho => h4 o (h2 o ho)⟩

/-! ## Lemmas on balance rows -/

theorem balance_row (rows : List BalanceRow) (r : BalanceRow)
    (hnd : (rows.map (fun x => x.user_id)).Nodup) (hr : r ∈ rows) :
    rows.find? (fun x => x.user_id == r.user_id) = some r := by
  induction rows with
  | nil => cases hr
  | cons x xs ih =>
    rw [List.map_cons, List.nodup_cons] at hnd
    obtain ⟨hx, hxs⟩ := hnd
    rcases List.mem_cons.mp hr with rfl | hmem
    · simp [List.find?_cons]
    · have hne : x.user_id ≠ r.user_id := by
        intro heq
        exact hx (List.mem_map.mpr ⟨r, hmem, heq.symm⟩)
      have hb : (x.user_id == r.user_id) = false := by simpa using hne
      rw [List.find?_cons, hb]
      exact ih hxs hmem

/-- The outcome of `Withdraw` and its effect on balances and withdrawals do not
depend on the table `orders`, which it leaves as it is. -/
theorem Withdraw_ignores_orders (ctx : Ctx) (os1 os2 : List Order) (rows : List BalanceRow)
    (ws : List Withdrawal) (i1 i2 j : Int) (u : Int) (label : String) (amount : ℚ) :
    (Withdraw ctx ⟨os1, rows, ws, i1, j⟩ u label amount).1
        = (Withdraw ctx ⟨os2, rows, ws, i2, j⟩ u label amount).1 ∧
    (Withdraw ctx ⟨os1, rows, ws, i1, j⟩ u label amount).2.user_balances
        = (Withdraw ctx ⟨os2, rows, ws, i2, j⟩ u label amount).2.user_balances ∧
    (Withdraw ctx ⟨os1, rows, ws, i1, j⟩ u label amount).2.withdrawals
        = (Withdraw ctx ⟨os2, rows, ws, i2, j⟩ u label amount).2.withdrawals ∧
    (Withdraw ctx ⟨os1, rows, ws, i1, j⟩ u label amount).2.orders = os1 := by
  have hbal : DB.balance ⟨os1, rows, ws, i1, j⟩ u = DB.balance ⟨os2, rows, ws, i2, j⟩ u := rfl
  cases hv : isValidOrderNumber label with
  | false =>
    rw [Withdraw_invalid _ _ u label amount hv, Withdraw_invalid _ _ u label amount hv]
    exact ⟨rfl, rfl, rfl, rfl⟩
  | true =>
    cases hg : ctx.dbErr RepoCall.GetUserBalance with
    | some e =>
      rw [Withdraw_read_fault _ _ u label amount e hv hg,
        Withdraw_read_fault _ _ u label amount e hv hg]
      exact ⟨rfl, rfl, rfl, rfl⟩
    | none =>
      by_cases hlt : (DB.balance ⟨os1, rows, ws, i1, j⟩ u).Current < amount
      · rw [Withdraw_insufficient _ _ u label amount hv hg hlt,
          Withdraw_insufficient _ _ u label amount hv hg (hbal ▸ hlt)]
        exact ⟨rfl, rfl, rfl, rfl⟩
      · cases hw : ctx.dbErr RepoCall.CreateWithdrawal with
        | some e =>
          rw [Withdraw_insert_fault _ _ u label amount e hv hg hlt hw,
            Withdraw_insert_fault _ _ u label amount e hv hg (hbal ▸ hlt) hw]
          exact ⟨rfl, rfl, rfl, rfl⟩
        | none =>
          cases hu : ctx.dbErr RepoCall.UpdateUserBalance with
          | some e =>
            rw [Withdraw_update_fault _ _ u label amount e hv hg hlt hw hu,
              Withdraw_update_fault _ _ u label amount e hv hg (hbal ▸ hlt) hw hu]
            exact ⟨rfl, rfl, rfl, rfl⟩
          | none =>
            rw [Withdraw_ok _ _ u label amount hv hg hlt hw hu,
              Withdraw_ok _ _ u label amount hv hg (hbal ▸ hlt) hw hu]
            exact ⟨rfl, rfl, rfl, rfl⟩

/-! ## Lemmas on `UpdateOrderStatus` -/

/-- Outcome of `UpdateOrderStatus` when the statement is executed: the rows with
the given id get the given status and accrual, whatever their status was. -/
theorem UpdateOrderStatus_ok (ctx : Ctx) (db : DB) (orderID : Int) (status : String)
    (accrual : Option ℚ) (hc : ctx.dbErr RepoCall.UpdateOrderStatus = none) :
    postgresRepo.UpdateOrderStatus ctx db orderID status accrual
      = (Except.ok (),
          ⟨db.orders.map (fun o =>
              if o.ID == orderID then
                ⟨o.ID, o.UserID, o.Number, status, accrual, o.UploadedAt⟩
              else o),
            db.user_balances, db.withdrawals, db.orders_id_seq, db.withdrawals_id_seq⟩) := by
  simp [postgresRepo.UpdateOrderStatus, hc]

theorem UpdateOrderStatus_rows (orders : List Order) (orderID : Int) (status : String)
    (accrual : Option ℚ) (o : Order) (ho : o ∈ orders) :
    (o.ID = orderID → (⟨o.ID, o.UserID, o.Number, status, accrual, o.UploadedAt⟩ : Order) ∈
      orders.map (fun o =>
        if o.ID == orderID then ⟨o.ID, o.UserID, o.Number, status, accrual, o.UploadedAt⟩
        else o)) ∧
    (o.ID ≠ orderID → o ∈
      orders.map (fun o =>
        if o.ID == orderID then ⟨o.ID, o.UserID, o.Number, status, accrual, o.UploadedAt⟩
        else o)) := by
  constructor
  · intro hid
    exact List.mem_map.mpr ⟨o, ho, by simp [hid]⟩
  · intro hid
    exact List.mem_map.mpr ⟨o, ho, by simp [hid]⟩

/-! ## Lemmas on accepted numbers, on trimming and on a changed digit -/

/-- A string that the validator accepts is made of at least two ASCII digits. -/
theorem valid_all_digits (s : String) (hv : isValidOrderNumber s = true) :
    (∀ c ∈ s.data, c.isDigit = true) ∧ 2 ≤ s.data.length := by
  have hall : ∀ c ∈ s.data, c.isDigit = true := by
    intro c hc
    by_contra hnd
    have hf : c.isDigit = false := by simpa using hnd
    have : isValidOrderNumber s = false := by
      unfold isValidOrderNumber
      rw [any_not_digit_true s.data c hc hf]
      simp
    rw [this] at hv
    cases hv
  refine ⟨hall, ?_⟩
  by_contra hlen
  obtain ⟨cs⟩ := s
  have hlt : (cs.map Char.toNat).length < 2 := by
    simpa using hlen
  have : isValidOrderNumber ⟨cs⟩ = false := by
    simp only [isValidOrderNumber, goBytes_digits cs hall, hlt, if_true]
  rw [this] at hv
  cases hv

theorem digit_not_space (c : Char) (h : c.isDigit = true) : isSpace c = false := by
  have := isDigit_cases c h
  simp only [List.mem_cons, List.mem_singleton, List.not_mem_nil, or_false] at this
  rcases this with h | h | h | h | h | h | h | h | h | h <;> subst h <;> decide

theorem dropWhile_all (p : Char → Bool) (pre l : List Char) (h : ∀ c ∈ pre, p c = true) :
    (pre ++ l).dropWhile p = l.dropWhile p := by
  induction pre with
  | nil => rfl
  | cons x xs ih =>
    rw [List.cons_append, List.dropWhile_cons, h x (List.mem_cons_self _ _)]
    exact ih (fun c hc => h c (List.mem_cons_of_mem _ hc))

theorem dropWhile_head (p : Char → Bool) (x : Char) (l : List Char) (h : p x = false) :
    (x :: l).dropWhile p = x :: l := by
  rw [List.dropWhile_cons, h]
  rfl

/-- Trimming removes white space added around a non-empty text that neither
begins nor ends with white space. -/
theorem trim_padded (pre post mid : List Char) (a b : Char) (tl it : List Char)
    (hpre : ∀ c ∈ pre, isSpace c = true) (hpost : ∀ c ∈ post, isSpace c = true)
    (hfirst : mid = a :: tl) (hlast : mid.reverse = b :: it)
    (ha : isSpace a = false) (hb : isSpace b = false) :
    ((((pre ++ mid ++ post).dropWhile isSpace).reverse).dropWhile isSpace).reverse = mid := by
  rw [List.append_assoc, dropWhile_all isSpace pre _ hpre, hfirst, List.cons_append,
    dropWhile_head isSpace a _ ha, ← List.cons_append, ← hfirst, List.reverse_append,
    dropWhile_all isSpace post.reverse _
      (fun c hc => hpost c (List.mem_reverse.mp hc)),
    hlast, dropWhile_head isSpace b _ hb, ← hlast, List.reverse_reverse]

theorem TrimSpace_padded (pre n post : String) (hv : isValidOrderNumber n = true)
    (hpre : ∀ c ∈ pre.data, isSpace c = true) (hpost : ∀ c ∈ post.data, isSpace c = true) :
    TrimSpace (pre ++ n ++ post) = n := by
  obtain ⟨hd, hl⟩ := valid_all_digits n hv
  obtain ⟨cs⟩ := n
  simp only at hd hl
  cases hcs : cs with
  | nil => rw [hcs] at hl; simp at hl
  | cons a tl =>
    cases hrev : cs.reverse with
    | nil =>
      have := congrArg List.length hrev
      rw [List.length_reverse, hcs] at this
      simp at this
    | cons b it =>
      have hamem : a ∈ cs := by rw [hcs]; exact List.mem_cons_self _ _
      have hbmem : b ∈ cs := by
        rw [← List.mem_reverse, hrev]; exact List.mem_cons_self _ _
      have key := trim_padded pre.data post.data cs a b tl it hpre hpost hcs hrev
        (digit_not_space a (hd a hamem)) (digit_not_space b (hd b hbmem))
      rw [hcs] at key
      unfold TrimSpace
      simp only [String.data_append]
      rw [key]

theorem TrimSpace_blank (r : String) (h : ∀ c ∈ r.data, isSpace c = true) :
    TrimSpace r = "" := by
  have h1 : r.data.dropWhile isSpace = [] := by
    have := dropWhile_all isSpace r.data [] h
    simpa using this
  unfold TrimSpace
  rw [h1]
  rfl

theorem specLuhnFrom_append (xs ys : List Nat) :
    ∀ pos : Nat, specLuhnFrom pos (xs ++ ys)
      = specLuhnFrom pos xs + specLuhnFrom (pos + xs.length) ys := by
  induction xs with
  | nil => intro pos; simp [specLuhnFrom]
  | cons x xs ih =>
    intro pos
    have hpos : pos + (x :: xs).length = pos + 1 + xs.length := by
      rw [List.length_cons]; omega
    show specLuhnFrom pos (x :: (xs ++ ys))
      = specLuhnFrom pos (x :: xs) + specLuhnFrom (pos + (x :: xs).length) ys
    rw [hpos]
    simp only [specLuhnFrom]
    rw [ih (pos + 1)]
    omega

/-- Replacing position `i` of a list splits the list around that position. -/
theorem set_split (cs : List Char) :
    ∀ i : Nat, i < cs.length →
      ∃ (pre : List Char) (c : Char) (post : List Char),
        cs = pre ++ c :: post ∧ cs[i]? = some c ∧
        ∀ d : Char, cs.set i d = pre ++ d :: post := by
  induction cs with
  | nil => intro i hi; simp at hi
  | cons x xs ih =>
    intro i hi
    cases i with
    | zero => exact ⟨[], x, xs, rfl, by simp, fun d => rfl⟩
    | succ k =>
      obtain ⟨pre, c, post, h1, h2, h3⟩ := ih k (by simpa using hi)
      refine ⟨x :: pre, c, post, by rw [h1]; rfl, by simpa using h2, ?_⟩
      intro d
      rw [List.set_cons_succ, h3 d]
      rfl

theorem digitValue_inj (c d : Char) (hc : c.isDigit = true) (hd : d.isDigit = true)
    (h : digitValue c = digitValue d) : c = d := by
  have h1 := isDigit_cases c hc
  have h2 := isDigit_cases d hd
  simp only [List.mem_cons, List.mem_singleton, List.not_mem_nil, or_false] at h1 h2
  rcases h1 with h1 | h1 | h1 | h1 | h1 | h1 | h1 | h1 | h1 | h1 <;>
    rcases h2 with h2 | h2 | h2 | h2 | h2 | h2 | h2 | h2 | h2 | h2 <;>
    subst h1 <;> subst h2 <;> first | rfl | (exact absurd h (by decide))

theorem specLuhnTerm_detects (pos x y a b : Nat) (hx : x ≤ 9) (hy : y ≤ 9) (hxy : x ≠ y)
    (h1 : (a + (specLuhnTerm pos x + b)) % 10 = 0) :
    (a + (specLuhnTerm pos y + b)) % 10 ≠ 0 := by
  unfold specLuhnTerm at h1 ⊢
  split_ifs at h1 ⊢ <;> omega

/-- The Luhn sum of a string of digits, split around one of its characters. -/
theorem specLuhnSum_split (pre post : List Char) (x : Char) :
    specLuhnSum ⟨pre ++ x :: post⟩
      = specLuhnFrom 0 (post.reverse.map digitValue)
        + (specLuhnTerm post.length (digitValue x)
          + specLuhnFrom (post.length + 1) (pre.reverse.map digitValue)) := by
  unfold specLuhnSum
  simp only [List.reverse_append, List.reverse_cons, List.map_append, List.map_cons,
    List.map_nil, List.append_assoc, List.singleton_append]
  rw [specLuhnFrom_append]
  simp [specLuhnFrom]

/-- Changing one digit of an accepted number gives a rejected string. -/
theorem changed_digit_rejected (pre post : List Char) (c d : Char)
    (hv : isValidOrderNumber ⟨pre ++ c :: post⟩ = true)
    (hd : d.isDigit = true) (hne : c ≠ d) :
    isValidOrderNumber ⟨pre ++ d :: post⟩ = false := by
  obtain ⟨hall, hlen⟩ := valid_all_digits _ hv
  simp only at hall hlen
  have hcd : c.isDigit = true := hall c (by simp)
  have hall' : ∀ x ∈ (⟨pre ++ d :: post⟩ : String).data, x.isDigit = true := by
    intro x hx
    simp only [List.mem_append, List.mem_cons] at hx
    rcases hx with hx | hx | hx
    · exact hall x (by simp [hx])
    · rw [hx]; exact hd
    · exact hall x (by simp [hx])
  have hlen' : 2 ≤ (⟨pre ++ d :: post⟩ : String).length := by
    simp only [String.length, List.length_append, List.length_cons] at hlen ⊢
    exact hlen
  have hlen0 : 2 ≤ (⟨pre ++ c :: post⟩ : String).length := by
    simp only [String.length]
    exact hlen
  rw [isValidOrderNumber_digits _ hall hlen0, specLuhnSum_split] at hv
  rw [isValidOrderNumber_digits _ hall' hlen', specLuhnSum_split]
  have h0 : (specLuhnFrom 0 (post.reverse.map digitValue)
      + (specLuhnTerm post.length (digitValue c)
        + specLuhnFrom (post.length + 1) (pre.reverse.map digitValue))) % 10 = 0 := by
    simpa using hv
  have hneq := specLuhnTerm_detects post.length (digitValue c) (digitValue d) _ _
    (digit_bytes c hcd).2.2 (digit_bytes d hd).2.2
    (fun h => hne (digitValue_inj c d hcd hd h)) h0
  simpa using hneq

/-! ## Lemmas on the exact effect of `UpdateOrderStatus` and of a credit -/

/-- The table written by `UpdateOrderStatus`, with the comparison of ids as a
proposition. -/
theorem UpdateOrderStatus_table (orders : List Order) (orderID : Int) (status : String)
    (accrual : Option ℚ) :
    orders.map (fun o =>
        if o.ID == orderID then ⟨o.ID, o.UserID, o.Number, status, accrual, o.UploadedAt⟩
        else o)
      = orders.map (fun o =>
        if o.ID = orderID then
          (⟨o.ID, o.UserID, o.Number, status, accrual, o.UploadedAt⟩ : Order)
        else o) := by
  apply List.map_congr_left
  intro o _
  by_cases h : o.ID = orderID
  · simp [h]
  · simp [h]

/-- After `UpdateOrderStatus` every row with the given id carries the given
status and accrual. -/
theorem UpdateOrderStatus_all (orders : List Order) (orderID : Int) (status : String)
    (accrual : Option ℚ) (x : Order)
    (hx : x ∈ orders.map (fun o =>
      if o.ID = orderID then
        (⟨o.ID, o.UserID, o.Number, status, accrual, o.UploadedAt⟩ : Order)
      else o))
    (hid : x.ID = orderID) : x.Status = status ∧ x.Accrual = accrual := by
  obtain ⟨o, _, ho⟩ := List.mem_map.mp hx
  by_cases h : o.ID = orderID
  · rw [if_pos h] at ho
    rw [← ho]
    exact ⟨rfl, rfl⟩
  · rw [if_neg h] at ho
    rw [← ho] at hid
    exact absurd hid h

theorem find_upsert_other (rows : List BalanceRow) (u v : Int) (c w : ℚ) (h : v ≠ u) :
    (postgresRepo.upsertBalance rows u c w).find? (fun r => r.user_id == v)
      = rows.find? (fun r => r.user_id == v) := by
  have huv : (u == v) = false := by simpa using (Ne.symm h)
  unfold postgresRepo.upsertBalance
  split_ifs with hany
  · clear hany
    induction rows with
    | nil => rfl
    | cons r rs ih =>
      by_cases hr : r.user_id = u
      · have hb : (r.user_id == u) = true := by simpa using hr
        have hv : (r.user_id == v) = false := by rw [hr]; exact huv
        rw [List.map_cons, hb, if_pos rfl, List.find?_cons, List.find?_cons, hv]
        have hv2 : ((⟨u, c, w⟩ : BalanceRow).user_id == v) = false := huv
        rw [hv2]
        exact ih
      · have hb : (r.user_id == u) = false := by simpa using hr
        rw [List.map_cons, hb, List.find?_cons, List.find?_cons]
        simp only [Bool.false_eq_true, if_false]
        rw [ih]
  · rw [List.find?_append]
    have hv2 : ((⟨u, c, w⟩ : BalanceRow).user_id == v) = false := huv
    simp [List.find?_cons, hv2]

/-- A write of the balance of `u` leaves the balance of every other user as it was. -/
theorem balance_other_upsert (o : List Order) (rows : List BalanceRow)
    (ws : List Withdrawal) (i j : Int) (u v : Int) (c w : ℚ) (h : v ≠ u) :
    DB.balance ⟨o, postgresRepo.upsertBalance rows u c w, ws, i, j⟩ v
      = DB.balance ⟨o, rows, ws, i, j⟩ v := by
  simp only [DB.balance, find_upsert_other rows u v c w h]

/-! ## Theorems -/

/-- C1: for every string of ASCII digits of length at least 2, `isValidOrderNumber`
holds exactly when the Luhn sum of the specification (rightmost digit as is,
every second digit after it doubled, 9 subtracted from a doubled value above 9)
is divisible by 10; the reduction `(d % 10) + 1` of the code agrees with
subtracting 9 on every doubled digit; and the three test vectors evaluate as
the tests expect. -/
theorem C1_luhn_checksum :
    (∀ s : String, (∀ c ∈ s.data, c.isDigit = true) → 2 ≤ s.length →
      (isValidOrderNumber s = true ↔ specLuhnSum s % 10 = 0)) ∧
    (∀ d : Nat, d ≤ 9 → 9 < 2 * d → luhnDigit true d = 2 * d - 9) ∧
    isValidOrderNumber "12345678903" = true ∧
    isValidOrderNumber "9278923470" = true ∧
    isValidOrderNumber "1234567890" = false := by
  refine ⟨?_, ?_, by decide, by decide, by decide⟩
  · intro s hd hl
    rw [isValidOrderNumber_digits s hd hl]
    simp
  · intro d h9 h
    unfold luhnDigit
    simp only [if_true]
    split_ifs <;> omega

/-- Witness of C1 at the order number of the tests. -/
theorem C1_luhn_checksum_witness :
    isValidOrderNumber "12345678903" = true ↔ specLuhnSum "12345678903" % 10 = 0 :=
  C1_luhn_checksum.1 "12345678903" (by decide) (by decide)

/-- C2: `isValidOrderNumber` is false for every string shorter than two
characters (the empty string among them) and for every string in which some
character, wherever it stands, is not an ASCII digit. -/
theorem C2_rejects_malformed :
    (∀ s : String, s.length < 2 → isValidOrderNumber s = false) ∧
    (∀ (s : String) (c : Char), c ∈ s.data → c.isDigit = false →
      isValidOrderNumber s = false) ∧
    isValidOrderNumber "" = false ∧
    isValidOrderNumber "12a4" = false ∧
    isValidOrderNumber "1234567890a" = false := by
  have hnd : ∀ (s : String) (c : Char), c ∈ s.data → c.isDigit = false →
      isValidOrderNumber s = false := by
    intro s c hc hnd
    unfold isValidOrderNumber
    rw [any_not_digit_true s.data c hc hnd]
    simp
  refine ⟨?_, hnd, by decide, by decide, by decide⟩
  intro s hl
  by_cases hall : ∀ c ∈ s.data, c.isDigit = true
  · obtain ⟨cs⟩ := s
    have hlen : (cs.map Char.toNat).length < 2 := by
      simpa [String.length] using hl
    simp only [isValidOrderNumber, goBytes_digits cs hall, hlen, if_true]
  · push_neg at hall
    obtain ⟨c, hc, hcd⟩ := hall
    exact hnd s c hc (by simpa using hcd)

/-- Witness of C2 at a string with a letter in the middle. -/
theorem C2_rejects_malformed_witness : isValidOrderNumber "12a4" = false :=
  C2_rejects_malformed.2.1 "12a4" 'a' (by decide) (by decide)

/-- C3: over a database that keeps order numbers unique and holds no order with
number `n` of another user, two uploads of the Luhn-valid number `n` by user `u`
in a row (no statement failing) both succeed, the second returns the very
record the first returned and leaves the database as the first left it, the
table then holds exactly one order with number `n`, and when `n` was absent
before, that order is the one row the first call added. -/
theorem C3_idempotent_upload (ctx1 ctx2 : Ctx) (db : DB) (u : Int) (n : String)
    (hv : isValidOrderNumber n = true) (hwf : db.WF)
    (hown : ∀ o ∈ db.orders, o.Number = n → o.UserID = u)
    (h1 : ctx1.healthy) (h2 : ctx2.healthy) :
    ∃ (o : Order) (db1 : DB),
      UploadOrder ctx1 db u n = (Except.ok o, db1) ∧
      UploadOrder ctx2 db1 u n = (Except.ok o, db1) ∧
      db1.orders.filter (fun x => x.Number == n) = [o] ∧
      o.UserID = u ∧ o.Number = n ∧
      ((∀ x ∈ db.orders, x.Number ≠ n) → db1.orders = db.orders ++ [o]) := by
  have e1 := h1 RepoCall.GetOrderByNumber
  have e1c := h1 RepoCall.CreateOrder
  have e2 := h2 RepoCall.GetOrderByNumber
  cases hf : db.orders.find? (fun x => x.Number == n) with
  | some o =>
    obtain ⟨hmem, hnum⟩ := find_some_spec db.orders n o hf
    have hu : o.UserID = u := hown o hmem hnum
    have hfil := (find_present db.orders o hwf hmem).2
    rw [hnum] at hfil
    refine ⟨o, db, ?_, ?_, hfil, hu, hnum, ?_⟩
    · simp [UploadOrder, postgresRepo.GetOrderByNumber, hv, e1, hf, hu]
    · simp [UploadOrder, postgresRepo.GetOrderByNumber, hv, e2, hf, hu]
    · intro habs
      exact absurd hnum (habs o hmem)
  | none =>
    have habs : ∀ x ∈ db.orders, x.Number ≠ n := by
      intro x hx
      have := List.find?_eq_none.mp hf x hx
      simpa using this
    obtain ⟨_, hany, hfil⟩ := find_absent db.orders n habs
    refine ⟨⟨db.orders_id_seq, u, n, OrderStatusNew, none, ctx1.now⟩,
      ⟨db.orders ++ [⟨db.orders_id_seq, u, n, OrderStatusNew, none, ctx1.now⟩],
        db.user_balances, db.withdrawals, db.orders_id_seq + 1, db.withdrawals_id_seq⟩,
      ?_, ?_, ?_, rfl, rfl, fun _ => rfl⟩
    · simp [UploadOrder, postgresRepo.GetOrderByNumber, postgresRepo.CreateOrder, hv, e1,
        e1c, hf, hany]
    · simp [UploadOrder, postgresRepo.GetOrderByNumber, hv, e2, List.find?_append, hf]
    · simp [List.filter_append, hfil]

/-- Witness of C3: user 1 uploads the order number of the tests twice into the
empty database. -/
theorem C3_idempotent_upload_witness :
    ∃ (o : Order) (db1 : DB),
      UploadOrder (okCtx 10) emptyDB 1 "12345678903" = (Except.ok o, db1) ∧
      UploadOrder (okCtx 20) db1 1 "12345678903" = (Except.ok o, db1) ∧
      db1.orders.filter (fun x => x.Number == "12345678903") = [o] ∧
      o.UserID = 1 ∧ o.Number = "12345678903" ∧
      ((∀ x ∈ emptyDB.orders, x.Number ≠ "12345678903") →
        db1.orders = emptyDB.orders ++ [o]) :=
  C3_idempotent_upload (okCtx 10) (okCtx 20) emptyDB 1 "12345678903" (by decide)
    (by simp [DB.WF, emptyDB]) (by simp [emptyDB]) (fun _ => rfl) (fun _ => rfl)

/-- C4: when the table holds an order with the Luhn-valid number `n` owned by
user `a`, an upload of `n` by another user `b` fails with the error "order
already uploaded by another user", which is not the invalid-format error, and
the database (the order of `a` in particular) is left exactly as it was. -/
theorem C4_ownership_conflict (ctx : Ctx) (db : DB) (a b : Int) (n : String) (o : Order)
    (hv : isValidOrderNumber n = true) (hwf : db.WF)
    (ho : o ∈ db.orders) (hn : o.Number = n) (hu : o.UserID = a) (hab : a ≠ b)
    (hc : ctx.dbErr RepoCall.GetOrderByNumber = none) :
    UploadOrder ctx db b n = (Except.error "order already uploaded by another user", db) ∧
      "order already uploaded by another user" ≠ "invalid order number format" := by
  have hf := (find_present db.orders o hwf ho).1
  rw [hn] at hf
  have hne : ¬ o.UserID = b := by rw [hu]; exact hab
  refine ⟨?_, by decide⟩
  simp [UploadOrder, postgresRepo.GetOrderByNumber, hv, hc, hf, hne]

/-- Witness of C4: user 2 uploads a number that user 1 already owns. -/
theorem C4_ownership_conflict_witness :
    UploadOrder (okCtx 20) ⟨[⟨1, 1, "12345678903", "NEW", none, 10⟩], [], [], 2, 1⟩ 2
        "12345678903"
      = (Except.error "order already uploaded by another user",
          ⟨[⟨1, 1, "12345678903", "NEW", none, 10⟩], [], [], 2, 1⟩) ∧
      "order already uploaded by another user" ≠ "invalid order number format" :=
  C4_ownership_conflict (okCtx 20) ⟨[⟨1, 1, "12345678903", "NEW", none, 10⟩], [], [], 2, 1⟩
    1 2 "12345678903" ⟨1, 1, "12345678903", "NEW", none, 10⟩ (by decide)
    (by simp [DB.WF]) (by simp) rfl rfl (by decide) rfl

/-- C5: when the balance of the user is (current, withdrawn), the label is
Luhn-valid, `amount ≤ current` and no statement fails, `Withdraw` succeeds, the
balance afterwards is (current - amount, withdrawn + amount), and exactly one
Withdrawal is appended, carrying that user, label and amount; the orders are
untouched.  The statement does not need `0 < amount`. -/
theorem C5_debit_success (ctx : Ctx) (db : DB) (u : Int) (label : String)
    (amount current withdrawn : ℚ)
    (hb : db.balance u = ⟨current, withdrawn⟩) (hv : isValidOrderNumber label = true)
    (hle : amount ≤ current) (hc : ctx.healthy) :
    ∃ (w : Withdrawal) (db1 : DB),
      Withdraw ctx db u label amount = (Except.ok w, db1) ∧
      db1.balance u = ⟨current - amount, withdrawn + amount⟩ ∧
      db1.withdrawals = db.withdrawals ++ [w] ∧
      w.UserID = u ∧ w.Order = label ∧ w.Sum = amount ∧
      db1.orders = db.orders := by
  have hge : ¬ (db.balance u).Current < amount := by rw [hb]; exact not_lt.mpr hle
  refine ⟨_, _, Withdraw_ok ctx db u label amount hv (hc _) hge (hc _) (hc _), ?_,
    rfl, rfl, rfl, rfl, rfl⟩
  rw [balance_after_upsert, hb]

/-- Witness of C5: from the balance (500, 0), withdrawing 500 gives (0, 500) and
one Withdrawal of 500. -/
theorem C5_debit_success_witness :
    ∃ (w : Withdrawal) (db1 : DB),
      Withdraw (okCtx 7) db500 1 "12345678903" 500 = (Except.ok w, db1) ∧
      db1.balance 1 = ⟨500 - 500, 0 + 500⟩ ∧
      db1.withdrawals = db500.withdrawals ++ [w] ∧
      w.UserID = 1 ∧ w.Order = "12345678903" ∧ w.Sum = 500 ∧
      db1.orders = db500.orders :=
  C5_debit_success (okCtx 7) db500 1 "12345678903" 500 500 0 rfl (by decide) (le_refl _)
    (fun _ => rfl)

/-- C6: with a Luhn-valid label and a balance that can be read, `Withdraw` fails
with the error "insufficient funds" exactly when `current < amount`; when it
does, the database is exactly as before (balance unchanged, no Withdrawal). -/
theorem C6_insufficient_funds (ctx : Ctx) (db : DB) (u : Int) (label : String) (amount : ℚ)
    (hv : isValidOrderNumber label = true)
    (hg : ctx.dbErr RepoCall.GetUserBalance = none) :
    ((Withdraw ctx db u label amount).1 = Except.error "insufficient funds" ↔
        (db.balance u).Current < amount) ∧
    ((db.balance u).Current < amount →
        Withdraw ctx db u label amount = (Except.error "insufficient funds", db)) := by
  refine ⟨⟨?_, fun h => by rw [Withdraw_insufficient ctx db u label amount hv hg h]⟩,
    Withdraw_insufficient ctx db u label amount hv hg⟩
  intro h
  by_contra hge
  cases hw : ctx.dbErr RepoCall.CreateWithdrawal with
  | some e =>
    rw [Withdraw_insert_fault ctx db u label amount e hv hg hge hw] at h
    have h' := Except.error.inj h
    exact string_append_ne "failed to create withdrawal: " "insufficient funds" _
      'f' 'i' _ _ rfl rfl (by decide) h'
  | none =>
    cases hu : ctx.dbErr RepoCall.UpdateUserBalance with
    | some e =>
      rw [Withdraw_update_fault ctx db u label amount e hv hg hge hw hu] at h
      have h' := Except.error.inj h
      exact string_append_ne "failed to update user balance: " "insufficient funds" _
        'f' 'i' _ _ rfl rfl (by decide) h'
    | none =>
      rw [Withdraw_ok ctx db u label amount hv hg hge hw hu] at h
      cases h

/-- Witness of C6: with no balance row (current = 0), a withdrawal of 1 fails. -/
theorem C6_insufficient_funds_witness :
    ((Withdraw (okCtx 7) emptyDB 1 "12345678903" 1).1 = Except.error "insufficient funds" ↔
        (emptyDB.balance 1).Current < 1) ∧
    ((emptyDB.balance 1).Current < 1 →
        Withdraw (okCtx 7) emptyDB 1 "12345678903" 1
          = (Except.error "insufficient funds", emptyDB)) :=
  C6_insufficient_funds (okCtx 7) emptyDB 1 "12345678903" 1 (by decide) rfl

/-- C8, counterexample: a credit of -5 is accepted by `updateUserBalance` and
lowers `current` from 500 to 495, and a debit of -5 is accepted by `Withdraw`,
records a Withdrawal of -5 and lowers `withdrawn` from 0 to -5. -/
theorem C8_nonpositive_accepted :
    OrderProcessor.updateUserBalance (okCtx 7) db500 1 (-5)
      = (Except.ok (), ⟨[], [⟨1, 495, 0⟩], [], 1, 1⟩) ∧
    Withdraw (okCtx 7) db500 1 "12345678903" (-5)
      = (Except.ok ⟨1, 1, "12345678903", -5, 7⟩,
          ⟨[], [⟨1, 505, -5⟩], [⟨1, 1, "12345678903", -5, 7⟩], 1, 2⟩) := by
  constructor
  · rw [updateUserBalance_ok (okCtx 7) db500 1 (-5) rfl rfl]
    simp [db500, DB.balance, postgresRepo.upsertBalance]
    norm_num
  · rw [Withdraw_ok (okCtx 7) db500 1 "12345678903" (-5) valid_test_number rfl
      (by simp [DB.balance, db500]; norm_num) rfl rfl]
    simp [db500, DB.balance, postgresRepo.upsertBalance, okCtx]
    norm_num

/-- C8, amended: the requirement of a positive amount is enforced for debits
only and at the HTTP handler: for every amount `≤ 0`, `Handler.Withdraw` answers
400 and leaves the database as it was, and no request to `Handler.Withdraw`
lowers `withdrawn`; the credit `updateUserBalance` checks no amount: for any
amount, with no failing statement, it succeeds, adds the amount to `current`
and leaves `withdrawn` and the withdrawals unchanged. -/
theorem C8_amount_guard :
    (∀ (ctx : Ctx) (db : DB) (u : Int) (req : WithdrawRequest), req.Sum ≤ 0 →
      Handler.Withdraw ctx db u req = (400, db)) ∧
    (∀ (ctx : Ctx) (db : DB) (u : Int) (req : WithdrawRequest),
      (db.balance u).Withdrawn ≤ ((Handler.Withdraw ctx db u req).2.balance u).Withdrawn) ∧
    (∀ (ctx : Ctx) (db : DB) (u : Int) (amount : ℚ),
      ctx.dbErr RepoCall.GetUserBalance = none →
      ctx.dbErr RepoCall.UpdateUserBalance = none →
      ∃ db1 : DB, OrderProcessor.updateUserBalance ctx db u amount = (Except.ok (), db1) ∧
        db1.balance u = ⟨(db.balance u).Current + amount, (db.balance u).Withdrawn⟩ ∧
        db1.withdrawals = db.withdrawals) := by
  refine ⟨?_, ?_, ?_⟩
  · intro ctx db u req h
    simp [Handler.Withdraw, h]
  · intro ctx db u req
    by_cases hg : (req.Order == "" || decide (req.Sum ≤ 0)) = true
    · simp only [Handler.Withdraw, hg, if_true]
      exact le_refl _
    · have hpos : 0 < req.Sum := by
        simp only [Bool.or_eq_true, decide_eq_true_eq, not_or, not_le] at hg
        exact hg.2
      have h2 : (Handler.Withdraw ctx db u req).2
          = (Withdraw ctx db u req.Order req.Sum).2 := by
        simp only [Handler.Withdraw, hg]
        rw [if_neg (by simp)]
        rcases hr : Withdraw ctx db u req.Order req.Sum with ⟨r, d⟩
        cases r with
        | error err => simp only []; split_ifs <;> rfl
        | ok w => rfl
      rw [h2]
      rcases Withdraw_outcomes ctx db u req.Order req.Sum with
        ⟨_, _, _, hw, _⟩ | ⟨_, hb, _⟩
      · rw [hw]
        linarith
      · rw [balance_congr _ _ u hb]
  · intro ctx db u amount hg hu
    refine ⟨_, updateUserBalance_ok ctx db u amount hg hu, ?_, rfl⟩
    rw [balance_after_upsert]

/-- Witness of C8: a withdrawal request of -5 is answered 400, and a credit
of -5 is applied. -/
theorem C8_amount_guard_witness :
    Handler.Withdraw (okCtx 7) db500 1 ⟨"12345678903", -5⟩ = (400, db500) ∧
    ∃ db1 : DB, OrderProcessor.updateUserBalance (okCtx 7) db500 1 (-5) = (Except.ok (), db1) ∧
      db1.balance 1 = ⟨(db500.balance 1).Current + (-5), (db500.balance 1).Withdrawn⟩ ∧
      db1.withdrawals = db500.withdrawals :=
  ⟨C8_amount_guard.1 (okCtx 7) db500 1 ⟨"12345678903", -5⟩ (by norm_num),
    C8_amount_guard.2.2 (okCtx 7) db500 1 (-5) rfl rfl⟩

/-- C9, counterexample: from the empty database, a credit of -5 followed by a
debit of 1 (which fails for lack of funds) leaves `current` at -5: after that
debit `current` is negative. -/
theorem C9_negative_after_debit :
    ((runLedger 1 emptyDB
        [LedgerCall.credit (okCtx 1) (-5),
          LedgerCall.debit (okCtx 2) "12345678903" 1]).balance 1).Current = -5 ∧
    ((runLedger 1 emptyDB
        [LedgerCall.credit (okCtx 1) (-5),
          LedgerCall.debit (okCtx 2) "12345678903" 1]).balance 1).Current < 0 := by
  have h1 : OrderProcessor.updateUserBalance (okCtx 1) emptyDB 1 (-5)
      = (Except.ok (), ⟨[], [⟨1, -5, 0⟩], [], 1, 1⟩) := by
    rw [updateUserBalance_ok (okCtx 1) emptyDB 1 (-5) rfl rfl]
    simp [emptyDB, DB.balance, postgresRepo.upsertBalance]
  have h2 : Withdraw (okCtx 2) ⟨[], [⟨1, -5, 0⟩], [], 1, 1⟩ 1 "12345678903" 1
      = (Except.error "insufficient funds", ⟨[], [⟨1, -5, 0⟩], [], 1, 1⟩) :=
    Withdraw_insufficient _ _ _ _ _ valid_test_number rfl (by simp [DB.balance]; norm_num)
  have h : ((runLedger 1 emptyDB
        [LedgerCall.credit (okCtx 1) (-5),
          LedgerCall.debit (okCtx 2) "12345678903" 1]).balance 1).Current = -5 := by
    simp [runLedger, LedgerCall.exec, h1, h2, DB.balance]
  exact ⟨h, by rw [h]; norm_num⟩

/-- C9, amended: for any sequence of credits and debits on one user executed one
after another from a database with no balance row for the user, the final
`current` is the sum of the amounts of the credits that succeeded minus the sum
of the amounts of the debits that succeeded; `current` is not negative after
any debit that succeeded; and when every credited amount is `≥ 0`, `current` is
not negative after any call at all. -/
theorem C9_ledger_sum (u : Int) (db : DB) (calls : List LedgerCall)
    (hnew : ∀ r ∈ db.user_balances, r.user_id ≠ u) :
    ((runLedger u db calls).balance u).Current
        = creditedSum u db calls - debitedSum u db calls ∧
    (∀ (pre : List LedgerCall) (ctx : Ctx) (order : String) (amount : ℚ)
        (post : List LedgerCall),
      calls = pre ++ LedgerCall.debit ctx order amount :: post →
      ((LedgerCall.debit ctx order amount).exec u (runLedger u db pre)).1 = true →
      0 ≤ ((runLedger u db (pre ++ [LedgerCall.debit ctx order amount])).balance u).Current) ∧
    ((∀ (ctx : Ctx) (amount : ℚ), LedgerCall.credit ctx amount ∈ calls → 0 ≤ amount) →
      ∀ pre post : List LedgerCall, calls = pre ++ post →
        0 ≤ ((runLedger u db pre).balance u).Current) := by
  have h0 : db.balance u = ⟨0, 0⟩ := balance_no_row db u hnew
  refine ⟨?_, ?_, ?_⟩
  · rw [ledger_sum, h0]
    simp
  · intro pre ctx order amount post _ hs
    rw [runLedger_append]
    simp only [runLedger]
    exact debit_ok_nonneg u _ ctx order amount hs
  · intro hc pre post hcalls
    apply runLedger_nonneg u pre
    · intro ctx amount hm
      exact hc ctx amount (by rw [hcalls]; exact List.mem_append_left _ hm)
    · rw [h0]

/-- Witness of C9: a credit of 500, a debit of 500 and a debit of 1 on user 1,
from the empty database. -/
theorem C9_ledger_sum_witness :
    ((runLedger 1 emptyDB
        [LedgerCall.credit (okCtx 1) 500, LedgerCall.debit (okCtx 2) "12345678903" 500,
          LedgerCall.debit (okCtx 3) "12345678903" 1]).balance 1).Current
      = creditedSum 1 emptyDB
          [LedgerCall.credit (okCtx 1) 500, LedgerCall.debit (okCtx 2) "12345678903" 500,
            LedgerCall.debit (okCtx 3) "12345678903" 1]
        - debitedSum 1 emptyDB
          [LedgerCall.credit (okCtx 1) 500, LedgerCall.debit (okCtx 2) "12345678903" 500,
            LedgerCall.debit (okCtx 3) "12345678903" 1] :=
  (C9_ledger_sum 1 emptyDB
    [LedgerCall.credit (okCtx 1) 500, LedgerCall.debit (okCtx 2) "12345678903" 500,
      LedgerCall.debit (okCtx 3) "12345678903" 1]
    (by simp [emptyDB])).1

/-- C10: when no stored order carries the Luhn-valid number `n` and no statement
fails, an upload of `n` by user `u` succeeds, appends exactly one row to
`orders` and returns that row, which has number `n`, owner `u`, status `NEW`,
no accrual and the current time; the rows already stored, and the other
tables, are unchanged. -/
theorem C10_new_upload (ctx : Ctx) (db : DB) (u : Int) (n : String)
    (hv : isValidOrderNumber n = true) (habs : ∀ o ∈ db.orders, o.Number ≠ n)
    (hc : ctx.healthy) :
    ∃ (o : Order) (db1 : DB),
      UploadOrder ctx db u n = (Except.ok o, db1) ∧
      db1.orders = db.orders ++ [o] ∧
      o.Number = n ∧ o.UserID = u ∧ o.Status = "NEW" ∧ o.Accrual = none ∧
      o.UploadedAt = ctx.now ∧
      db1.user_balances = db.user_balances ∧ db1.withdrawals = db.withdrawals := by
  obtain ⟨hf, hany, _⟩ := find_absent db.orders n habs
  refine ⟨⟨db.orders_id_seq, u, n, OrderStatusNew, none, ctx.now⟩,
    ⟨db.orders ++ [⟨db.orders_id_seq, u, n, OrderStatusNew, none, ctx.now⟩],
      db.user_balances, db.withdrawals, db.orders_id_seq + 1, db.withdrawals_id_seq⟩,
    ?_, rfl, rfl, rfl, rfl, rfl, rfl, rfl, rfl⟩
  simp [UploadOrder, postgresRepo.GetOrderByNumber, postgresRepo.CreateOrder, hv,
    hc RepoCall.GetOrderByNumber, hc RepoCall.CreateOrder, hf, hany]

/-- Witness of C10: a first upload by user 2 into a table holding another order. -/
theorem C10_new_upload_witness :
    ∃ (o : Order) (db1 : DB),
      UploadOrder (okCtx 30) ⟨[⟨1, 1, "12345678903", "NEW", none, 10⟩], [], [], 2, 1⟩ 2
          "9278923470" = (Except.ok o, db1) ∧
      db1.orders = [⟨1, 1, "12345678903", "NEW", none, 10⟩] ++ [o] ∧
      o.Number = "9278923470" ∧ o.UserID = 2 ∧ o.Status = "NEW" ∧ o.Accrual = none ∧
      o.UploadedAt = 30 ∧
      db1.user_balances = [] ∧ db1.withdrawals = [] :=
  C10_new_upload (okCtx 30) ⟨[⟨1, 1, "12345678903", "NEW", none, 10⟩], [], [], 2, 1⟩ 2
    "9278923470" (by decide) (by simp) (fun _ => rfl)

/-- C11: in a database that keeps order numbers unique, an order that is stored
stays stored unchanged through any sequence of uploads by any users with any
numbers, whatever statements fail: after the sequence (so after each of its
calls) the table holds exactly one order with that number, the same record with
the same owner, and order numbers are still unique. -/
theorem C11_ownership_permanent (db : DB) (calls : List UploadCall) (o : Order)
    (n : String) (a : Int) (hwf : db.WF) (ho : o ∈ db.orders)
    (hn : o.Number = n) (ha : o.UserID = a) :
    (runUploads db calls).orders.filter (fun x => x.Number == n) = [o] ∧
      o.UserID = a ∧ (runUploads db calls).WF := by
  obtain ⟨h1, h2⟩ := runUploads_keeps calls db hwf
  refine ⟨?_, ha, h1⟩
  rw [← hn]
  exact (find_present _ o h1 (h2 o ho)).2

/-- Witness of C11: user 1 owns the number of the tests; user 2 then uploads it,
user 1 uploads it again and user 2 uploads another number. -/
theorem C11_ownership_permanent_witness :
    (runUploads ⟨[⟨1, 1, "12345678903", "NEW", none, 10⟩], [], [], 2, 1⟩
        [⟨okCtx 20, 2, "12345678903"⟩, ⟨okCtx 30, 1, "12345678903"⟩,
          ⟨okCtx 40, 2, "9278923470"⟩]).orders.filter
        (fun x => x.Number == "12345678903") = [⟨1, 1, "12345678903", "NEW", none, 10⟩] ∧
      (⟨1, 1, "12345678903", "NEW", none, 10⟩ : Order).UserID = 1 ∧
      (runUploads ⟨[⟨1, 1, "12345678903", "NEW", none, 10⟩], [], [], 2, 1⟩
        [⟨okCtx 20, 2, "12345678903"⟩, ⟨okCtx 30, 1, "12345678903"⟩,
          ⟨okCtx 40, 2, "9278923470"⟩]).WF :=
  C11_ownership_permanent ⟨[⟨1, 1, "12345678903", "NEW", none, 10⟩], [], [], 2, 1⟩
    [⟨okCtx 20, 2, "12345678903"⟩, ⟨okCtx 30, 1, "12345678903"⟩, ⟨okCtx 40, 2, "9278923470"⟩]
    ⟨1, 1, "12345678903", "NEW", none, 10⟩ "12345678903" 1
    (by simp [DB.WF]) (by simp) rfl rfl

/-- C16: for a number that `isValidOrderNumber` rejects, `UploadOrder` fails with
the error "invalid order number format" and returns the database as it was,
whatever the database holds and whatever the repository would answer: the
outcome is the same for every database and every environment, so nothing is
read. -/
theorem C16_upload_rejects_malformed (u : Int) (n : String)
    (hv : isValidOrderNumber n = false) :
    (∀ (ctx : Ctx) (db : DB),
      UploadOrder ctx db u n = (Except.error "invalid order number format", db)) ∧
    (∀ (ctx1 ctx2 : Ctx) (db1 db2 : DB),
      (UploadOrder ctx1 db1 u n).1 = (UploadOrder ctx2 db2 u n).1) := by
  refine ⟨fun ctx db => UploadOrder_invalid ctx db u n hv, ?_⟩
  intro ctx1 ctx2 db1 db2
  rw [UploadOrder_invalid ctx1 db1 u n hv, UploadOrder_invalid ctx2 db2 u n hv]

/-- Witness of C16: a Luhn-invalid number that is stored all the same is
rejected before the table is looked at. -/
theorem C16_upload_rejects_malformed_witness :
    UploadOrder (okCtx 20) ⟨[⟨1, 1, "1234567890", "NEW", none, 10⟩], [], [], 2, 1⟩ 1
        "1234567890"
      = (Except.error "invalid order number format",
          ⟨[⟨1, 1, "1234567890", "NEW", none, 10⟩], [], [], 2, 1⟩) :=
  (C16_upload_rejects_malformed 1 "1234567890" (by decide)).1 (okCtx 20)
    ⟨[⟨1, 1, "1234567890", "NEW", none, 10⟩], [], [], 2, 1⟩

/-- C17: when the query of the balance is executed, `GetUserBalance`, and so
`GetBalance`, returns current = 0 and withdrawn = 0 for a user without a row in
`user_balances`, as a value and not as an error or an absent result; and for a
user with a row it returns the `current` and `withdrawn` of that row. -/
theorem C17_lazy_zero_balance (ctx : Ctx) (db : DB)
    (hg : ctx.dbErr RepoCall.GetUserBalance = none) :
    (∀ u : Int, (∀ r ∈ db.user_balances, r.user_id ≠ u) →
      postgresRepo.GetUserBalance ctx db u = Except.ok ⟨0, 0⟩ ∧
      GetBalance ctx db u = Except.ok ⟨0, 0⟩) ∧
    (∀ r : BalanceRow, db.BalanceKey → r ∈ db.user_balances →
      postgresRepo.GetUserBalance ctx db r.user_id
        = Except.ok ⟨r.current_balance, r.withdrawn_balance⟩ ∧
      GetBalance ctx db r.user_id = Except.ok ⟨r.current_balance, r.withdrawn_balance⟩) := by
  constructor
  · intro u hu
    have h : postgresRepo.GetUserBalance ctx db u = Except.ok ⟨0, 0⟩ := by
      simp only [postgresRepo.GetUserBalance, hg, balance_no_row db u hu]
    exact ⟨h, h⟩
  · intro r hk hr
    have h : postgresRepo.GetUserBalance ctx db r.user_id
        = Except.ok ⟨r.current_balance, r.withdrawn_balance⟩ := by
      simp only [postgresRepo.GetUserBalance, hg, DB.balance, balance_row _ r hk hr]
    exact ⟨h, h⟩

/-- Witness of C17: user 2 has no row and user 1 has the row (500, 0). -/
theorem C17_lazy_zero_balance_witness :
    (postgresRepo.GetUserBalance (okCtx 7) db500 2 = Except.ok ⟨0, 0⟩ ∧
      GetBalance (okCtx 7) db500 2 = Except.ok ⟨0, 0⟩) ∧
    (postgresRepo.GetUserBalance (okCtx 7) db500 1 = Except.ok ⟨500, 0⟩ ∧
      GetBalance (okCtx 7) db500 1 = Except.ok ⟨500, 0⟩) :=
  ⟨(C17_lazy_zero_balance (okCtx 7) db500 rfl).1 2 (by simp [db500]),
    (C17_lazy_zero_balance (okCtx 7) db500 rfl).2 ⟨1, 500, 0⟩
      (by simp [DB.BalanceKey, db500]) (by simp [db500])⟩

/-- C19: for a label that `isValidOrderNumber` rejects, `Withdraw` fails with the
error "invalid order number format" and returns the database as it was, for
every amount, balance and environment (so no balance is read, no Withdrawal
recorded, no balance changed), and `Handler.Withdraw` answers 422 for such a
label when it is not empty and the amount is positive; and the outcome of
`Withdraw` and its effect on balances and withdrawals are the same whatever the
table `orders` holds. -/
theorem C19_label_checked_first :
    (∀ (ctx : Ctx) (db : DB) (u : Int) (label : String) (amount : ℚ),
      isValidOrderNumber label = false →
      Withdraw ctx db u label amount = (Except.error "invalid order number format", db)) ∧
    (∀ (ctx : Ctx) (db : DB) (u : Int) (req : WithdrawRequest),
      isValidOrderNumber req.Order = false → req.Order ≠ "" → 0 < req.Sum →
      Handler.Withdraw ctx db u req = (422, db)) ∧
    (∀ (ctx : Ctx) (os1 os2 : List Order) (rows : List BalanceRow) (ws : List Withdrawal)
        (i1 i2 j : Int) (u : Int) (label : String) (amount : ℚ),
      (Withdraw ctx ⟨os1, rows, ws, i1, j⟩ u label amount).1
          = (Withdraw ctx ⟨os2, rows, ws, i2, j⟩ u label amount).1 ∧
      (Withdraw ctx ⟨os1, rows, ws, i1, j⟩ u label amount).2.user_balances
          = (Withdraw ctx ⟨os2, rows, ws, i2, j⟩ u label amount).2.user_balances ∧
      (Withdraw ctx ⟨os1, rows, ws, i1, j⟩ u label amount).2.withdrawals
          = (Withdraw ctx ⟨os2, rows, ws, i2, j⟩ u label amount).2.withdrawals ∧
      (Withdraw ctx ⟨os1, rows, ws, i1, j⟩ u label amount).2.orders = os1) := by
  refine ⟨Withdraw_invalid, ?_, Withdraw_ignores_orders⟩
  intro ctx db u req hv hne hpos
  have h1 : (req.Order == "") = false := by simpa using hne
  have h2 : decide (req.Sum ≤ 0) = false := by simpa using hpos
  simp [Handler.Withdraw, h1, h2, Withdraw_invalid ctx db u req.Order req.Sum hv]

/-- Witness of C19: a Luhn-invalid label is refused although the balance of 500
covers the amount of 100. -/
theorem C19_label_checked_first_witness :
    Withdraw (okCtx 7) db500 1 "1234567890" 100
        = (Except.error "invalid order number format", db500) ∧
      Handler.Withdraw (okCtx 7) db500 1 ⟨"1234567890", 100⟩ = (422, db500) :=
  ⟨C19_label_checked_first.1 (okCtx 7) db500 1 "1234567890" 100 (by decide),
    C19_label_checked_first.2.1 (okCtx 7) db500 1 ⟨"1234567890", 100⟩ (by decide)
      (by decide) (by norm_num)⟩

/-- C12, counterexample: an order in the terminal status `PROCESSED` with accrual
500 is moved back to `NEW` with no accrual by `updateOrderStatus`, which
returns no error. -/
theorem C12_terminal_overwritten :
    OrderProcessor.updateOrderStatus (okCtx 20)
        ⟨[⟨1, 1, "12345678903", "PROCESSED", some 500, 10⟩], [], [], 2, 1⟩ 1 "NEW" none
      = (Except.ok (), ⟨[⟨1, 1, "12345678903", "NEW", none, 10⟩], [], [], 2, 1⟩) := by
  rw [OrderProcessor.updateOrderStatus, UpdateOrderStatus_ok _ _ _ _ _ rfl]
  simp

/-- C12, amended: the transition operation checks no status.  For every order,
whatever its status (`INVALID` and `PROCESSED` included), and every new status
and accrual, `updateOrderStatus` succeeds when its statement is executed; the
table `orders` afterwards is the old table with the rows of the given id
rewritten in place to the new status and accrual and every other row as it
was, so no row of that id keeps another status or accrual and no row is added
or removed; the other tables and the sequences are unchanged.  It fails only
with the error of the statement, and then changes nothing. -/
theorem C12_transition_unchecked (ctx : Ctx) (db : DB) (orderID : Int) (status : String)
    (accrual : Option ℚ) :
    (ctx.dbErr RepoCall.UpdateOrderStatus = none →
      ∃ db1 : DB,
        OrderProcessor.updateOrderStatus ctx db orderID status accrual = (Except.ok (), db1) ∧
        db1.orders = db.orders.map (fun o =>
          if o.ID = orderID then
            (⟨o.ID, o.UserID, o.Number, status, accrual, o.UploadedAt⟩ : Order)
          else o) ∧
        db1.orders.length = db.orders.length ∧
        (∀ x ∈ db1.orders, x.ID = orderID → x.Status = status ∧ x.Accrual = accrual) ∧
        (∀ o ∈ db.orders, o.ID = orderID →
          (⟨o.ID, o.UserID, o.Number, status, accrual, o.UploadedAt⟩ : Order) ∈ db1.orders) ∧
        (∀ o ∈ db.orders, o.ID ≠ orderID → o ∈ db1.orders) ∧
        db1.user_balances = db.user_balances ∧ db1.withdrawals = db.withdrawals ∧
        db1.orders_id_seq = db.orders_id_seq ∧
        db1.withdrawals_id_seq = db.withdrawals_id_seq) ∧
    (∀ e : String, ctx.dbErr RepoCall.UpdateOrderStatus = some e →
      OrderProcessor.updateOrderStatus ctx db orderID status accrual
        = (Except.error ("failed to update order status: " ++ e), db)) := by
  constructor
  · intro hc
    refine ⟨(postgresRepo.UpdateOrderStatus ctx db orderID status accrual).2, ?_, ?_⟩
    · rw [OrderProcessor.updateOrderStatus, UpdateOrderStatus_ok _ _ _ _ _ hc]
    rw [UpdateOrderStatus_ok _ _ _ _ _ hc]
    have htab := UpdateOrderStatus_table db.orders orderID status accrual
    refine ⟨htab, ?_, ?_, ?_, ?_, rfl, rfl, rfl, rfl⟩
    · simp only [List.length_map]
    · intro x hx
      simp only [htab] at hx
      exact UpdateOrderStatus_all db.orders orderID status accrual x hx
    · intro o ho
      exact (UpdateOrderStatus_rows db.orders orderID status accrual o ho).1
    · intro o ho
      exact (UpdateOrderStatus_rows db.orders orderID status accrual o ho).2
  · intro e he
    simp [OrderProcessor.updateOrderStatus, postgresRepo.UpdateOrderStatus, he]

/-- Witness of C12: an order in the status `INVALID` is set to `PROCESSED` with
accrual 500, and the order with the other id stays as it was. -/
theorem C12_transition_unchecked_witness :
    ∃ db1 : DB,
      OrderProcessor.updateOrderStatus (okCtx 20)
          ⟨[⟨1, 1, "12345678903", "INVALID", none, 10⟩, ⟨2, 2, "9278923470", "NEW", none, 11⟩],
            [], [], 3, 1⟩ 1 "PROCESSED" (some 500) = (Except.ok (), db1) ∧
      db1.orders = [⟨1, 1, "12345678903", "PROCESSED", some 500, 10⟩,
        ⟨2, 2, "9278923470", "NEW", none, 11⟩] ∧
      db1.user_balances = [] ∧ db1.withdrawals = [] := by
  obtain ⟨db1, h1, h2, _, _, _, _, h3, h4, _, _⟩ :=
    (C12_transition_unchecked (okCtx 20)
      ⟨[⟨1, 1, "12345678903", "INVALID", none, 10⟩, ⟨2, 2, "9278923470", "NEW", none, 11⟩],
        [], [], 3, 1⟩ 1 "PROCESSED" (some 500)).1 rfl
  refine ⟨db1, h1, ?_, h3, h4⟩
  rw [h2]
  simp

/-- C13, counterexample: the accrual system answers `PROCESSED` with accrual 500
for the freshly uploaded order "12345678903" of user 1, and after a tick the
order is still `NEW` with no accrual and the balance of user 1 is still 0. -/
theorem C13_tick_applies_nothing :
    OrderProcessor.checkAccrualSystem "http://accrual" processedOracle "12345678903"
      = Except.ok (some ⟨"12345678903", "PROCESSED", some 500⟩) ∧
    (OrderProcessor.processNewOrders "http://accrual" processedOracle (okCtx 20)
        dbUploaded).2.orders = [⟨1, 1, "12345678903", "NEW", none, 10⟩] ∧
    ((OrderProcessor.processNewOrders "http://accrual" processedOracle (okCtx 20)
        dbUploaded).2.balance 1).Current = 0 := by
  refine ⟨?_, rfl, rfl⟩
  simp [OrderProcessor.checkAccrualSystem, processedOracle]

/-- C13, amended: a tick of the worker (`processNewOrders`, and
`loyaltyService.ProcessOrders`) is a stub: whatever the accrual system answers,
it returns no error and leaves the database as it was.  The effect of a
`PROCESSED` verdict with accrual `a` on an order of user `u` is what the two
helpers of the processor produce when called one after the other with no
failing statement: after `updateOrderStatus` and `updateUserBalance` the table
`orders` is the old table with the rows of the order's id rewritten in place
to the status `PROCESSED` with accrual `a` (no row of that id keeps another
status, no row is added or removed), `current` of `u` is larger by exactly
`a`, `withdrawn` of `u`, the balance of every other user and the withdrawals
are unchanged. -/
theorem C13_tick_is_stub :
    (∀ (addr : String) (http : String → Except String HTTPResponse) (ctx : Ctx) (db : DB),
      OrderProcessor.processNewOrders addr http ctx db = (Except.ok (), db) ∧
      ProcessOrders ctx db = (Except.ok (), db)) ∧
    (∀ (ctx1 ctx2 : Ctx) (db : DB) (o : Order) (a : ℚ), o ∈ db.orders →
      ctx1.dbErr RepoCall.UpdateOrderStatus = none →
      ctx2.dbErr RepoCall.GetUserBalance = none →
      ctx2.dbErr RepoCall.UpdateUserBalance = none →
      ∃ db1 db2 : DB,
        OrderProcessor.updateOrderStatus ctx1 db o.ID "PROCESSED" (some a)
          = (Except.ok (), db1) ∧
        OrderProcessor.updateUserBalance ctx2 db1 o.UserID a = (Except.ok (), db2) ∧
        db2.orders = db.orders.map (fun x =>
          if x.ID = o.ID then
            (⟨x.ID, x.UserID, x.Number, "PROCESSED", some a, x.UploadedAt⟩ : Order)
          else x) ∧
        db2.orders.length = db.orders.length ∧
        (∀ x ∈ db2.orders, x.ID = o.ID → x.Status = "PROCESSED" ∧ x.Accrual = some a) ∧
        (⟨o.ID, o.UserID, o.Number, "PROCESSED", some a, o.UploadedAt⟩ : Order)
          ∈ db2.orders ∧
        (db2.balance o.UserID).Current = (db.balance o.UserID).Current + a ∧
        (db2.balance o.UserID).Withdrawn = (db.balance o.UserID).Withdrawn ∧
        (∀ v : Int, v ≠ o.UserID → db2.balance v = db.balance v) ∧
        db2.withdrawals = db.withdrawals) := by
  refine ⟨fun _ _ _ _ => ⟨rfl, rfl⟩, ?_⟩
  intro ctx1 ctx2 db o a ho h1 hg hu
  refine ⟨(postgresRepo.UpdateOrderStatus ctx1 db o.ID "PROCESSED" (some a)).2,
    (OrderProcessor.updateUserBalance ctx2
      (postgresRepo.UpdateOrderStatus ctx1 db o.ID "PROCESSED" (some a)).2 o.UserID a).2,
    ?_, ?_, ?_⟩
  · rw [OrderProcessor.updateOrderStatus, UpdateOrderStatus_ok _ _ _ _ _ h1]
  · rw [updateUserBalance_ok ctx2 _ o.UserID a hg hu]
  rw [updateUserBalance_ok ctx2 _ o.UserID a hg hu, UpdateOrderStatus_ok _ _ _ _ _ h1]
  have htab := UpdateOrderStatus_table db.orders o.ID "PROCESSED" (some a)
  refine ⟨htab, ?_, ?_, ?_, ?_, ?_, ?_, rfl⟩
  · simp only [List.length_map]
  · intro x hx
    simp only [htab] at hx
    exact UpdateOrderStatus_all db.orders o.ID "PROCESSED" (some a) x hx
  · exact (UpdateOrderStatus_rows db.orders o.ID "PROCESSED" (some a) o ho).1 rfl
  · rw [balance_after_upsert]
    rfl
  · rw [balance_after_upsert]
    rfl
  · intro v hv
    rw [balance_other_upsert _ _ _ _ _ _ v _ _ hv]
    rfl

/-- Witness of C13: the two helpers applied to the freshly uploaded order
"12345678903" of user 1 with accrual 500. -/
theorem C13_tick_is_stub_witness :
    ∃ db1 db2 : DB,
      OrderProcessor.updateOrderStatus (okCtx 20) dbUploaded 1 "PROCESSED" (some 500)
        = (Except.ok (), db1) ∧
      OrderProcessor.updateUserBalance (okCtx 21) db1 1 500 = (Except.ok (), db2) ∧
      db2.orders = [⟨1, 1, "12345678903", "PROCESSED", some 500, 10⟩] ∧
      (db2.balance 1).Current = (dbUploaded.balance 1).Current + 500 ∧
      (db2.balance 1).Withdrawn = (dbUploaded.balance 1).Withdrawn ∧
      db2.withdrawals = dbUploaded.withdrawals := by
  obtain ⟨db1, db2, h1, h2, h3, _, _, _, h4, h5, _, h6⟩ :=
    C13_tick_is_stub.2 (okCtx 20) (okCtx 21) dbUploaded
      ⟨1, 1, "12345678903", "NEW", none, 10⟩ 500 (by simp [dbUploaded]) rfl rfl rfl
  refine ⟨db1, db2, h1, h2, ?_, h4, h5, h6⟩
  rw [h3]
  simp [dbUploaded]

/-- C14, counterexample: two answers 429 with the retry-after hints "5" and "60"
give the same result, the error "rate limit exceeded", which carries no hint;
and `loyaltyService.checkAccrualSystem` returns an empty record for an answer
200 whose body holds an order, a status and an accrual. -/
theorem C14_hint_dropped :
    OrderProcessor.checkAccrualSystem "http://accrual" (throttlingOracle "5") "12345678903"
      = Except.error "rate limit exceeded" ∧
    OrderProcessor.checkAccrualSystem "http://accrual" (throttlingOracle "60") "12345678903"
      = Except.error "rate limit exceeded" ∧
    loyaltyService.checkAccrualSystem "http://accrual" processedOracle "12345678903"
      = Except.ok (some ⟨"", "", none⟩) := by
  refine ⟨?_, ?_, ?_⟩
  · simp [OrderProcessor.checkAccrualSystem, throttlingOracle]
  · simp [OrderProcessor.checkAccrualSystem, throttlingOracle]
  · simp [loyaltyService.checkAccrualSystem, processedOracle]

/-- C14, amended: when the address is configured and the accrual system answers,
`OrderProcessor.checkAccrualSystem` yields the record decoded from the body
when the code is 200 (and the error of the decoder when the body does not
decode), no result and no error when it is 204, the error "rate limit exceeded"
when it is 429, and the error "accrual system error: <code>" for every other
code.  The error of 429 does not depend on the `Retry-After` header, differs
from the error of every other code by its text, and is an error whereas 204
gives none.  `loyaltyService.checkAccrualSystem` does the same, except that on
200 it returns an empty record. -/
theorem C14_decision_mapping (addr : String) (http : String → Except String HTTPResponse)
    (n : String) (resp : HTTPResponse) (haddr : addr ≠ "")
    (hresp : http (addr ++ "/api/orders/" ++ n) = Except.ok resp) :
    (resp.StatusCode = 200 →
      (∀ r, resp.Body = Except.ok r →
        OrderProcessor.checkAccrualSystem addr http n = Except.ok (some r)) ∧
      (∀ e, resp.Body = Except.error e →
        OrderProcessor.checkAccrualSystem addr http n
          = Except.error ("failed to decode accrual response: " ++ e)) ∧
      loyaltyService.checkAccrualSystem addr http n = Except.ok (some ⟨"", "", none⟩)) ∧
    (resp.StatusCode = 204 →
      OrderProcessor.checkAccrualSystem addr http n = Except.ok none ∧
      loyaltyService.checkAccrualSystem addr http n = Except.ok none) ∧
    (resp.StatusCode = 429 →
      OrderProcessor.checkAccrualSystem addr http n = Except.error "rate limit exceeded" ∧
      loyaltyService.checkAccrualSystem addr http n = Except.error "rate limit exceeded") ∧
    (resp.StatusCode ≠ 200 → resp.StatusCode ≠ 204 → resp.StatusCode ≠ 429 →
      OrderProcessor.checkAccrualSystem addr http n
        = Except.error ("accrual system error: " ++ toString resp.StatusCode) ∧
      loyaltyService.checkAccrualSystem addr http n
        = Except.error ("accrual system error: " ++ toString resp.StatusCode)) ∧
    "accrual system error: " ++ toString resp.StatusCode ≠ "rate limit exceeded" ∧
    (Except.error "rate limit exceeded" : Except String (Option AccrualResponse))
      ≠ Except.ok none := by
  have ha : (addr == "") = false := by simpa using haddr
  refine ⟨?_, ?_, ?_, ?_, ?_, ?_⟩
  · intro hc
    refine ⟨?_, ?_, ?_⟩
    · intro r hr
      simp [OrderProcessor.checkAccrualSystem, ha, hresp, hc, hr]
    · intro e he
      simp [OrderProcessor.checkAccrualSystem, ha, hresp, hc, he]
    · simp [loyaltyService.checkAccrualSystem, ha, hresp, hc]
  · intro hc
    constructor
    · simp [OrderProcessor.checkAccrualSystem, ha, hresp, hc]
    · simp [loyaltyService.checkAccrualSystem, ha, hresp, hc]
  · intro hc
    constructor
    · simp [OrderProcessor.checkAccrualSystem, ha, hresp, hc]
    · simp [loyaltyService.checkAccrualSystem, ha, hresp, hc]
  · intro h1 h2 h3
    constructor
    · simp [OrderProcessor.checkAccrualSystem, ha, hresp, h1, h2, h3]
    · simp [loyaltyService.checkAccrualSystem, ha, hresp, h1, h2, h3]
  · exact string_append_ne "accrual system error: " "rate limit exceeded" _
      'a' 'r' _ _ rfl rfl (by decide)
  · intro h
    cases h

/-- Witness of C14: an answer 429 with the hint "60". -/
theorem C14_decision_mapping_witness :
    OrderProcessor.checkAccrualSystem "http://accrual" (throttlingOracle "60") "12345678903"
        = Except.error "rate limit exceeded" ∧
      loyaltyService.checkAccrualSystem "http://accrual" (throttlingOracle "60") "12345678903"
        = Except.error "rate limit exceeded" :=
  (C14_decision_mapping "http://accrual" (throttlingOracle "60") "12345678903"
    ⟨429, some "60", Except.error "EOF"⟩ (by decide) rfl).2.2.1 rfl

/-- C15: the upload entry point `Handler.UploadOrder` validates the trimmed
number.  For a Luhn-valid number `n` with white space added before and after
it, the answer and the database after the request are those of the request
with `n` itself; a body that is empty after trimming is answered 400 with the
database untouched; and 400 is not the answer to an invalid format, which is
422. -/
theorem C15_upload_trims :
    (∀ (ctx : Ctx) (db : DB) (u : Int) (n pre post : String),
      isValidOrderNumber n = true →
      (∀ c ∈ pre.data, isSpace c = true) → (∀ c ∈ post.data, isSpace c = true) →
      Handler.UploadOrder ctx db u (pre ++ n ++ post) = Handler.UploadOrder ctx db u n ∧
      Handler.UploadOrder ctx db u n
        = (match UploadOrder ctx db u n with
          | (Except.error err, db1) =>
            if err == "invalid order number format" then (422, db1)
            else if err == "order already uploaded by another user" then (409, db1)
            else (500, db1)
          | (Except.ok order, db1) =>
            if order.Status == OrderStatusNew then (200, db1) else (202, db1))) ∧
    (∀ (ctx : Ctx) (db : DB) (u : Int) (r : String),
      (∀ c ∈ r.data, isSpace c = true) → Handler.UploadOrder ctx db u r = (400, db)) ∧
    (∀ (ctx : Ctx) (db : DB) (u : Int) (body : String),
      TrimSpace body ≠ "" → isValidOrderNumber (TrimSpace body) = false →
      Handler.UploadOrder ctx db u body = (422, db)) := by
  refine ⟨?_, ?_, ?_⟩
  · intro ctx db u n pre post hv hpre hpost
    have h1 := TrimSpace_padded pre n post hv hpre hpost
    have h2 : TrimSpace n = n := by
      have := TrimSpace_padded "" n "" hv (by simp) (by simp)
      simpa using this
    have hne : (n == "") = false := by
      have hl := (valid_all_digits n hv).2
      have : n ≠ "" := by
        intro h
        rw [h] at hl
        simp at hl
      simpa using this
    constructor
    · simp only [Handler.UploadOrder, h1, h2]
    · simp only [Handler.UploadOrder, h2, hne]
      rfl
  · intro ctx db u r hr
    simp [Handler.UploadOrder, TrimSpace_blank r hr]
  · intro ctx db u body hne hv
    have h1 : (TrimSpace body == "") = false := by simpa using hne
    simp [Handler.UploadOrder, h1, UploadOrder_invalid ctx db u _ hv]

/-- Witness of C15: the number of the tests between two spaces and a line feed,
and a body of white space only. -/
theorem C15_upload_trims_witness :
    (Handler.UploadOrder (okCtx 5) emptyDB 1 ("  " ++ "12345678903" ++ "\n")
        = Handler.UploadOrder (okCtx 5) emptyDB 1 "12345678903" ∧
      Handler.UploadOrder (okCtx 5) emptyDB 1 "12345678903"
        = (match UploadOrder (okCtx 5) emptyDB 1 "12345678903" with
          | (Except.error err, db1) =>
            if err == "invalid order number format" then (422, db1)
            else if err == "order already uploaded by another user" then (409, db1)
            else (500, db1)
          | (Except.ok order, db1) =>
            if order.Status == OrderStatusNew then (200, db1) else (202, db1))) ∧
    Handler.UploadOrder (okCtx 5) emptyDB 1 " \t\n" = (400, emptyDB) :=
  ⟨C15_upload_trims.1 (okCtx 5) emptyDB 1 "12345678903" "  " "\n" (by decide) (by decide)
      (by decide),
    C15_upload_trims.2.1 (okCtx 5) emptyDB 1 " \t\n" (by decide)⟩

/-- C18: for every string that `isValidOrderNumber` accepts, every position of
the string and every ASCII digit other than the one standing there, the
string with that position replaced by the digit is rejected; and the code maps
the doubled digits 0..9 to 0, 2, 4, 6, 8, 1, 3, 5, 7, 9, each value once. -/
theorem C18_single_digit_error (s : String) (i : Nat) (d : Char)
    (hv : isValidOrderNumber s = true) (hi : i < s.length)
    (hd : d.isDigit = true) (hne : s.data[i]? ≠ some d) :
    isValidOrderNumber ⟨s.data.set i d⟩ = false ∧
      (List.range 10).map (luhnDigit true) = [0, 2, 4, 6, 8, 1, 3, 5, 7, 9] := by
  refine ⟨?_, by decide⟩
  obtain ⟨cs⟩ := s
  obtain ⟨pre, c, post, h1, h2, h3⟩ := set_split cs i hi
  simp only at hne hv ⊢
  rw [h3 d]
  rw [h1] at hv
  apply changed_digit_rejected pre post c d hv hd
  intro hcd
  apply hne
  rw [h2, hcd]

/-- Witness of C18: the last digit of the number of the tests changed from 3 to 4. -/
theorem C18_single_digit_error_witness :
    isValidOrderNumber ⟨("12345678903" : String).data.set 10 '4'⟩ = false :=
  (C18_single_digit_error "12345678903" 10 '4' (by decide) (by decide) (by decide)
    (by decide)).1

end Loyalty
